import Mathlib

/-
Verification development for the visual-tree-to-design-document converter
(`generateFigmaJson` and its helpers in `src/utils/figma-gen.ts`).

JavaScript numbers are modelled as `Option ℚ`: `none` stands for NaN and
`some q` for the finite value `q`.  The style-value grammars handled by the
converter only produce finite decimal literals, so floating-point rounding,
the infinities and scientific notation are not modelled.  JavaScript strings
are Lean `String`s and scanning is performed on their character lists.
-/

unseal Rat.mul Rat.inv Rat.add Rat.sub

/-- A JavaScript number: `none` is NaN, `some q` a finite value. -/
abbrev JSNum := Option ℚ

/-- NaN-propagating division by a constant (the divisors used by the source,
255 and 100, are nonzero). -/
def jsDiv (x : JSNum) (c : ℚ) : JSNum := x.map (fun v => v / c)

/-- JavaScript `x > c`: false when `x` is NaN. -/
def jsGtB (x : JSNum) (c : ℚ) : Bool :=
  match x with
  | none => false
  | some v => decide (c < v)

/-- JavaScript `x >= c`: false when `x` is NaN. -/
def jsGeB (x : JSNum) (c : ℚ) : Bool :=
  match x with
  | none => false
  | some v => decide (c ≤ v)

/-- JavaScript `x === c` for a number literal `c`: false when `x` is NaN. -/
def jsEqB (x : JSNum) (c : ℚ) : Bool :=
  match x with
  | none => false
  | some v => decide (v = c)

/-- Truncation toward zero, as used by the JavaScript `%` operator. -/
def ratTrunc (q : ℚ) : ℤ := if 0 ≤ q then ⌊q⌋ else ⌈q⌉

/-- JavaScript remainder `x % m` (sign follows the dividend); NaN propagates. -/
def jsRemNum (x : JSNum) (m : ℚ) : JSNum :=
  x.map (fun a => a - m * (ratTrunc (a / m) : ℚ))

/-- JavaScript `Math.abs`; NaN propagates. -/
def jsAbsNum (x : JSNum) : JSNum := x.map (fun a => |a|)

/-- JavaScript `String.prototype.trim` (the whitespace set is approximated by
`Char.isWhitespace`; the style values at play only use plain spaces). -/
def jsTrim (s : String) : String :=
  String.mk (((s.data.dropWhile Char.isWhitespace).reverse.dropWhile
    Char.isWhitespace).reverse)

/-- The character class `[\d.]` of the pixel-length regex. -/
def isNumDot (c : Char) : Bool := c.isDigit || c = '.'

/-- The character class `[a-fA-F0-9]` of the hex-color regexes. -/
def isHexDigitChar (c : Char) : Bool :=
  "0123456789abcdefABCDEF".data.contains c

/-- Decimal digit value. -/
def decDigitVal (c : Char) : ℕ := c.toNat - 48

/-- Value of a string of decimal digits. -/
def decDigitsVal (ds : List Char) : ℕ :=
  ds.foldl (fun acc c => 10 * acc + decDigitVal c) 0

/-- Hexadecimal digit value (chars outside `[a-fA-F0-9]` are never fed in). -/
def hexDigitVal (c : Char) : ℕ :=
  match c with
  | '0' => 0 | '1' => 1 | '2' => 2 | '3' => 3 | '4' => 4
  | '5' => 5 | '6' => 6 | '7' => 7 | '8' => 8 | '9' => 9
  | 'a' => 10 | 'b' => 11 | 'c' => 12 | 'd' => 13 | 'e' => 14 | 'f' => 15
  | 'A' => 10 | 'B' => 11 | 'C' => 12 | 'D' => 13 | 'E' => 14 | 'F' => 15
  | _ => 0

/-- Value of a string of hexadecimal digits. -/
def hexDigitsVal (ds : List Char) : ℕ :=
  ds.foldl (fun acc c => 16 * acc + hexDigitVal c) 0

/-- JavaScript `parseFloat`, restricted to finite decimal notation: skip
leading whitespace, optional sign, integer digits, optional fraction; NaN
(`none`) when no digit is consumed.  Trailing garbage is ignored, exactly as
in JavaScript. -/
def jsParseFloat (s : String) : JSNum :=
  let l := s.data.dropWhile Char.isWhitespace
  let sgn : ℚ := match l with
    | '-' :: _ => -1
    | _ => 1
  let l := match l with
    | '-' :: rest => rest
    | '+' :: rest => rest
    | _ => l
  let intDigits := l.takeWhile Char.isDigit
  let rest := l.dropWhile Char.isDigit
  let fracDigits := match rest with
    | '.' :: r2 => r2.takeWhile Char.isDigit
    | _ => []
  if intDigits = [] && fracDigits = [] then none
  else some (sgn * ((decDigitsVal intDigits : ℚ) +
    (decDigitsVal fracDigits : ℚ) / 10 ^ fracDigits.length))

/-- JavaScript `parseInt(s, 16)`: skip leading whitespace, optional sign,
optional `0x`/`0X` prefix, then a maximal run of hex digits; NaN when the
run is empty. -/
def jsParseIntHex (s : String) : JSNum :=
  let l := s.data.dropWhile Char.isWhitespace
  let sgn : ℚ := if l.headD ' ' = '-' then -1 else 1
  let l := if l.headD ' ' = '-' ∨ l.headD ' ' = '+' then l.drop 1 else l
  let l := if l.headD ' ' = '0' ∧ ((l.drop 1).headD ' ' = 'x' ∨
      (l.drop 1).headD ' ' = 'X') then l.drop 2 else l
  let ds := l.takeWhile isHexDigitChar
  if ds = [] then none
  else some (sgn * (hexDigitsVal ds : ℚ))

/-- JavaScript `parseInt(s)` with no radix argument: decimal, except that a
`0x` prefix switches to hexadecimal. -/
def jsParseIntDec (s : String) : JSNum :=
  let l := s.data.dropWhile Char.isWhitespace
  let sgn : ℚ := match l with
    | '-' :: _ => -1
    | _ => 1
  let l := match l with
    | '-' :: rest => rest
    | '+' :: rest => rest
    | _ => l
  match l with
  | '0' :: 'x' :: rest =>
    let ds := rest.takeWhile isHexDigitChar
    if ds = [] then none else some (sgn * (hexDigitsVal ds : ℚ))
  | '0' :: 'X' :: rest =>
    let ds := rest.takeWhile isHexDigitChar
    if ds = [] then none else some (sgn * (hexDigitsVal ds : ℚ))
  | _ =>
    let ds := l.takeWhile Char.isDigit
    if ds = [] then none else some (sgn * (decDigitsVal ds : ℚ))

/-- Substring containment on character lists. -/
def listContains : List Char → List Char → Bool
  | l, pat =>
    if pat.isPrefixOf l then true
    else
      match l with
      | [] => false
      | _ :: rest => listContains rest pat

/-- JavaScript `String.prototype.includes`. -/
def strContains (s pat : String) : Bool := listContains s.data pat.data

/-- Replace the first occurrence of `pat` in `l` by `repl`; with an empty
`pat` this inserts `repl` at the front, exactly as `String.prototype.replace`
with an empty search string. -/
def replaceFirstL : List Char → List Char → List Char → List Char
  | l, pat, repl =>
    if pat.isPrefixOf l then repl ++ l.drop pat.length
    else
      match l with
      | [] => []
      | c :: rest => c :: replaceFirstL rest pat repl

/-- JavaScript `String.prototype.replace` with a plain-string pattern. -/
def jsReplaceFirst (s pat repl : String) : String :=
  String.mk (replaceFirstL s.data pat.data repl.data)

/-- Suffix of `l` after the first occurrence of `pat`, if any. -/
def afterFirstMatch : List Char → List Char → Option (List Char)
  | pat, l =>
    if pat.isPrefixOf l then some (l.drop pat.length)
    else
      match l with
      | [] => none
      | _ :: rest => afterFirstMatch pat rest

/-- One global scan of the numeric-token regex
`(\d+(\.\d+)?|\.\d+)%?` : at each position, greedily take integer digits, an
optional fraction, then an optional trailing `%`; on failure advance one
character.  `fuel` bounds the recursion and is instantiated with the input
length, which always suffices since every step consumes at least one
character. -/
def numTokensF : ℕ → List Char → List (List Char)
  | 0, _ => []
  | _ + 1, [] => []
  | fuel + 1, c :: rest =>
    if c.isDigit then
      let ip := c :: rest.takeWhile Char.isDigit
      let r1 := rest.dropWhile Char.isDigit
      let tokr : List Char × List Char :=
        match r1 with
        | '.' :: r2 =>
          if (r2.headD ' ').isDigit then
            (ip ++ '.' :: r2.takeWhile Char.isDigit, r2.dropWhile Char.isDigit)
          else (ip, r1)
        | _ => (ip, r1)
      match tokr.2 with
      | '%' :: r3 => (tokr.1 ++ ['%']) :: numTokensF fuel r3
      | _ => tokr.1 :: numTokensF fuel tokr.2
    else if c = '.' then
      match rest with
      | d :: _ =>
        if d.isDigit then
          let tok := '.' :: rest.takeWhile Char.isDigit
          let r2 := rest.dropWhile Char.isDigit
          match r2 with
          | '%' :: r3 => (tok ++ ['%']) :: numTokensF fuel r3
          | _ => tok :: numTokensF fuel r2
        else numTokensF fuel rest
      | [] => []
    else numTokensF fuel rest

/-- All matches of `(\d+(\.\d+)?|\.\d+)%?` in `s`, in order
(`String.prototype.match` with the `g` flag). -/
def matchNumbers (s : String) : List (List Char) :=
  numTokensF s.data.length s.data

/-- One global scan of the pixel-length regex `(-?[\d.]+)px` : an optional
minus sign, a maximal nonempty run over `[\d.]`, then the literal `px`.
Failed attempts inside a run fail at the same terminator, so the scan resumes
after the run; the returned matches include the `px` suffix, exactly as the
full-match strings returned by `String.prototype.match`. -/
def pxTokensF : ℕ → List Char → List (List Char)
  | 0, _ => []
  | _ + 1, [] => []
  | fuel + 1, c :: rest =>
    if c = '-' || isNumDot c then
      let body := if c = '-' then rest else c :: rest
      let run := body.takeWhile isNumDot
      let after := body.dropWhile isNumDot
      if run = [] then pxTokensF fuel rest
      else
        match after with
        | 'p' :: 'x' :: tl =>
          ((if c = '-' then ['-'] else []) ++ run ++ ['p', 'x']) ::
            pxTokensF fuel tl
        | _ => pxTokensF fuel after
    else pxTokensF fuel rest

/-- All matches of `(-?[\d.]+)px` in `l`, in order. -/
def pxMatches (l : List Char) : List (List Char) :=
  pxTokensF l.length l

/-- First match of `([\d.]+)%`, returning the captured group (the run before
the `%`).  A failed run fails at the same terminator for every start inside
it, so the scan resumes after the run. -/
def pctRunF : ℕ → List Char → Option (List Char)
  | 0, _ => none
  | _ + 1, [] => none
  | fuel + 1, c :: rest =>
    if isNumDot c then
      let run := c :: rest.takeWhile isNumDot
      let after := rest.dropWhile isNumDot
      match after with
      | '%' :: _ => some run
      | _ => pctRunF fuel after
    else pctRunF fuel rest

/-- First match of `([\d.]+)%` in `l` (capture group only). -/
def findPctRun (l : List Char) : Option (List Char) :=
  pctRunF l.length l

/-- Body of a color function token: `[^)]+\)` — a nonempty run of
non-`)` characters followed by `)`.  Returns the matched part (run plus
closing paren) and the remainder. -/
def parenBody (l : List Char) : Option (List Char × List Char) :=
  let inner := l.takeWhile (fun c => c ≠ ')')
  let rest := l.dropWhile (fun c => c ≠ ')')
  match rest, inner with
  | ')' :: tl, _ :: _ => some (inner ++ [')'], tl)
  | _, _ => none

/-- Match `pre ++ a? ++ ( ++ [^)]+ ++ )` at the head of `l` (the
`rgba?\(...\)` and `hsla?\(...\)` alternatives; the optional `a` is taken
greedily, and backtracking to the `a`-less branch can never succeed since the
next character is then `a`, not `(`). -/
def fnTokenAt (pre : List Char) (l : List Char) : Option (List Char) :=
  if (pre ++ ['a', '(']).isPrefixOf l then
    match parenBody (l.drop (pre.length + 2)) with
    | some (body, _) => some (pre ++ 'a' :: '(' :: body)
    | none => none
  else if (pre ++ ['(']).isPrefixOf l then
    match parenBody (l.drop (pre.length + 1)) with
    | some (body, _) => some (pre ++ '(' :: body)
    | none => none
  else none

/-- Match `#` followed by at least `minHex` hex digits at the head of `l`;
the greedy quantifier takes at most `maxHex` digits when a bound is given
(`#[a-fA-F0-9]{3,8}` in the shadow parser, `#[a-fA-F0-9]+` in the gradient
parser). -/
def hexTokenAt (minHex : ℕ) (maxHex : Option ℕ) (l : List Char) :
    Option (List Char) :=
  match l with
  | '#' :: r =>
    let run := r.takeWhile isHexDigitChar
    if run.length < minHex then none
    else
      match maxHex with
      | some m => some ('#' :: run.take m)
      | none => some ('#' :: run)
  | _ => none

/-- First match of `rgba?\([^)]+\)|#[a-fA-F0-9]{m,M}|hsla?\([^)]+\)`:
leftmost position wins; the three alternatives start with distinct
characters, so their order is immaterial at a given position. -/
def findColorToken (minHex : ℕ) (maxHex : Option ℕ) :
    List Char → Option (List Char)
  | [] => none
  | c :: rest =>
    match fnTokenAt ['r', 'g', 'b'] (c :: rest) with
    | some m => some m
    | none =>
      match hexTokenAt minHex maxHex (c :: rest) with
      | some m => some m
      | none =>
        match fnTokenAt ['h', 's', 'l'] (c :: rest) with
        | some m => some m
        | none => findColorToken minHex maxHex rest

/-- `splitSafe` from the source: split at commas that sit at parenthesis
depth 0, trimming each part; a nonempty trailing accumulator is appended. -/
def splitSafe (str : String) : List String :=
  let step := fun (st : List String × List Char × ℤ) (ch : Char) =>
    let depth' := if ch = '(' then st.2.2 + 1
      else if ch = ')' then st.2.2 - 1 else st.2.2
    if ch = ',' && depth' = 0 then
      (st.1 ++ [jsTrim (String.mk st.2.1)], [], depth')
    else (st.1, st.2.1 ++ [ch], depth')
  let fin := str.data.foldl step ([], [], 0)
  if fin.2.1 ≠ [] then fin.1 ++ [jsTrim (String.mk fin.2.1)] else fin.1

/-- Capture of the regex `linear-gradient\((.*)\)`: the text between the
first occurrence of `linear-gradient(` and the last `)` after it (the
greedy `.*` backtracks to the final closing paren). -/
def linearGradientContent (s : String) : Option String :=
  match afterFirstMatch "linear-gradient(".data s.data with
  | none => none
  | some tl =>
    let rev := tl.reverse
    let revAfter := rev.dropWhile (fun c => c ≠ ')')
    match revAfter with
    | ')' :: revContent => some (String.mk revContent.reverse)
    | _ => none


/-- The `type` discriminator of `FigmaNode`
(`'FRAME' | 'TEXT' | 'RECTANGLE' | 'VECTOR'`). -/
inductive FigmaNodeType where
  | FRAME | TEXT | RECTANGLE | VECTOR
deriving DecidableEq, Repr

/-- The `type` discriminator of `FigmaPaint`. -/
inductive FigmaPaintType where
  | SOLID | GRADIENT_LINEAR | GRADIENT_RADIAL | IMAGE
deriving DecidableEq, Repr

/-- The `type` discriminator of `FigmaEffect`. -/
inductive FigmaEffectType where
  | DROP_SHADOW | INNER_SHADOW
deriving DecidableEq, Repr

/-- `blendMode` values. -/
inductive FigmaBlendMode where
  | PASS_THROUGH | NORMAL
deriving DecidableEq, Repr

/-- `layoutMode` values. -/
inductive FigmaLayoutMode where
  | HORIZONTAL | VERTICAL | NONE
deriving DecidableEq, Repr

/-- `primaryAxisAlignItems` values. -/
inductive FigmaPrimaryAlign where
  | MIN | MAX | CENTER | SPACE_BETWEEN
deriving DecidableEq, Repr

/-- `counterAxisAlignItems` values. -/
inductive FigmaCounterAlign where
  | MIN | MAX | CENTER
deriving DecidableEq, Repr

/-- `primaryAxisSizingMode` / `counterAxisSizingMode` values (`AUTO` = hug). -/
inductive FigmaSizingMode where
  | FIXED | AUTO
deriving DecidableEq, Repr

/-- `layoutAlign` values (declared but never assigned by the source). -/
inductive FigmaLayoutAlign where
  | MIN | CENTER | MAX | STRETCH | INHERIT
deriving DecidableEq, Repr

/-- `textAlignHorizontal` values. -/
inductive FigmaTextAlignH where
  | LEFT | CENTER | RIGHT
deriving DecidableEq, Repr

/-- `textAlignVertical` values. -/
inductive FigmaTextAlignV where
  | TOP | CENTER | BOTTOM
deriving DecidableEq, Repr

/-- `FigmaColor` from the source: four channels, each a JavaScript number. -/
structure FigmaColor where
  r : JSNum
  g : JSNum
  b : JSNum
  a : JSNum
deriving DecidableEq, Repr

/-- A gradient-handle point (always built from exact constants). -/
structure FigmaVec where
  x : ℚ
  y : ℚ
deriving DecidableEq, Repr

/-- The three `gradientHandlePositions` of a linear-gradient paint. -/
structure GradientHandles where
  p0 : FigmaVec
  p1 : FigmaVec
  p2 : FigmaVec
deriving DecidableEq, Repr

/-- `FigmaGradientStop` from the source. -/
structure FigmaGradientStop where
  position : JSNum
  color : FigmaColor
deriving DecidableEq, Repr

/-- `FigmaPaint` from the source; fields that the interface declares optional
are `Option`s, `none` meaning the field is absent. -/
structure FigmaPaint where
  type : FigmaPaintType
  color : Option FigmaColor := none
  opacity : Option JSNum := none
  gradientStops : Option (List FigmaGradientStop) := none
  gradientHandlePositions : Option GradientHandles := none
deriving DecidableEq, Repr

/-- An effect offset `{x, y}`. -/
structure JSPoint where
  x : JSNum
  y : JSNum
deriving DecidableEq, Repr

/-- `FigmaEffect` from the source.  The source pushes every field, including
`spread`, on each constructed effect. -/
structure FigmaEffect where
  type : FigmaEffectType
  visible : Bool
  color : FigmaColor
  blendMode : FigmaBlendMode
  offset : JSPoint
  radius : JSNum
  spread : JSNum
deriving DecidableEq, Repr

/-- `fontName` on a Text node. -/
structure FigmaFontName where
  family : String
  style : String
deriving DecidableEq, Repr

/-- All fields of `FigmaNode` except the recursive `children` list; optional
interface fields are `Option`s (`none` = absent from the emitted object).
Geometry comes from `getBoundingClientRect` and is an exact rational. -/
structure FigmaNodeCore where
  type : FigmaNodeType
  name : String
  x : Option ℚ := none
  y : Option ℚ := none
  width : ℚ
  height : ℚ
  visible : Option Bool := none
  opacity : Option JSNum := none
  blendMode : Option FigmaBlendMode := none
  layoutMode : Option FigmaLayoutMode := none
  primaryAxisAlignItems : Option FigmaPrimaryAlign := none
  counterAxisAlignItems : Option FigmaCounterAlign := none
  primaryAxisSizingMode : Option FigmaSizingMode := none
  counterAxisSizingMode : Option FigmaSizingMode := none
  layoutAlign : Option FigmaLayoutAlign := none
  layoutGrow : Option JSNum := none
  itemSpacing : Option JSNum := none
  paddingLeft : Option JSNum := none
  paddingRight : Option JSNum := none
  paddingTop : Option JSNum := none
  paddingBottom : Option JSNum := none
  fills : Option (List FigmaPaint) := none
  strokes : Option (List FigmaPaint) := none
  strokeWeight : Option JSNum := none
  cornerRadius : Option JSNum := none
  effects : Option (List FigmaEffect) := none
  characters : Option String := none
  fontSize : Option JSNum := none
  fontName : Option FigmaFontName := none
  textAlignHorizontal : Option FigmaTextAlignH := none
  textAlignVertical : Option FigmaTextAlignV := none
deriving DecidableEq, Repr

/-- `FigmaNode`: the non-recursive fields plus the optional `children`
list. -/
inductive FigmaNode where
  | mk (core : FigmaNodeCore) (children : Option (List FigmaNode))

/-- The non-recursive fields of a node. -/
def FigmaNode.core : FigmaNode → FigmaNodeCore
  | .mk c _ => c

/-- The `children` field of a node (`none` = absent). -/
def FigmaNode.children : FigmaNode → Option (List FigmaNode)
  | .mk _ k => k

/-- The resolved (computed) style snapshot of an element: every property the
converter reads, as the string `getComputedStyle` reports. -/
structure CSSStyleDeclaration where
  display : String := ""
  flexDirection : String := ""
  gap : String := ""
  paddingLeft : String := ""
  paddingRight : String := ""
  paddingTop : String := ""
  paddingBottom : String := ""
  justifyContent : String := ""
  alignItems : String := ""
  backgroundColor : String := ""
  backgroundImage : String := ""
  borderWidth : String := ""
  borderColor : String := ""
  borderRadius : String := ""
  boxShadow : String := ""
  opacity : String := ""
  visibility : String := ""
  color : String := ""
  fontFamily : String := ""
  fontSize : String := ""
  fontWeight : String := ""
  textAlign : String := ""
  textShadow : String := ""
deriving DecidableEq, Repr

/-- `getBoundingClientRect()` geometry. -/
structure DOMRect where
  x : ℚ := 0
  y : ℚ := 0
  width : ℚ := 0
  height : ℚ := 0
deriving DecidableEq, Repr

/-- A DOM node as seen by the converter: either a text run or an element
carrying its tag, `aria-label` attribute, class list, `innerText`, computed
style, geometry and child nodes (`childNodes` includes text runs; the
element-only `children` collection is recovered by filtering). -/
inductive DOMNode where
  | textNode (content : String)
  | elementNode (tagName : String) (ariaLabel : Option String)
      (classes : List String) (innerText : String)
      (style : CSSStyleDeclaration) (rect : DOMRect)
      (childNodes : List DOMNode)

/-- ASCII lowercasing (`String.prototype.toLowerCase` on tag names). -/
def lowerStr (s : String) : String := String.mk (s.data.map Char.toLower)

/-- `tag.charAt(0).toUpperCase() + tag.slice(1)`. -/
def capitalizeFirst (s : String) : String :=
  match s.data with
  | [] => ""
  | c :: rest => String.mk (Char.toUpper c :: rest)

/-- `style.fontFamily.split(',')[0]`: the segment before the first comma. -/
def firstCommaSegment (s : String) : String :=
  String.mk (s.data.takeWhile (fun c => c ≠ ','))

/-- `.replace(/['"]/g, '')`: drop every apostrophe and double quote. -/
def stripQuotes (s : String) : String :=
  String.mk (s.data.filter (fun c => c ≠ Char.ofNat 39 && c ≠ Char.ofNat 34))

/-- `parseColor` from the source.  Keyword cases first; then `#`-prefixed hex
of length 3, 6 or 8 (each byte `parseInt(_, 16)`, divided by 255, alpha byte
additionally by 255); otherwise all numeric tokens are extracted and the
first three become R, G, B (`%` → value/100, else value/255) with an optional
fourth as alpha (`%` → value/100, else the literal value); fewer than three
tokens leaves the `{0,0,0,1}` default. -/
def parseColor (colorStr : String) : FigmaColor :=
  if colorStr == "" || colorStr == "transparent" || colorStr == "none" then
    { r := some 0, g := some 0, b := some 0, a := some 0 }
  else
    match colorStr.data with
    | '#' :: hex =>
      let rgba : JSNum × JSNum × JSNum × JSNum :=
        if hex.length = 3 then
          (jsParseIntHex (String.mk [hex.getD 0 ' ', hex.getD 0 ' ']),
           jsParseIntHex (String.mk [hex.getD 1 ' ', hex.getD 1 ' ']),
           jsParseIntHex (String.mk [hex.getD 2 ' ', hex.getD 2 ' ']),
           some 1)
        else if hex.length = 6 then
          (jsParseIntHex (String.mk (hex.take 2)),
           jsParseIntHex (String.mk ((hex.drop 2).take 2)),
           jsParseIntHex (String.mk ((hex.drop 4).take 2)),
           some 1)
        else if hex.length = 8 then
          (jsParseIntHex (String.mk (hex.take 2)),
           jsParseIntHex (String.mk ((hex.drop 2).take 2)),
           jsParseIntHex (String.mk ((hex.drop 4).take 2)),
           jsDiv (jsParseIntHex (String.mk ((hex.drop 6).take 2))) 255)
        else (some 0, some 0, some 0, some 1)
      { r := jsDiv rgba.1 255, g := jsDiv rgba.2.1 255,
        b := jsDiv rgba.2.2.1 255, a := rgba.2.2.2 }
    | _ =>
      let numbers := matchNumbers colorStr
      if numbers.length ≥ 3 then
        let parseValue := fun (tok : List Char) (mx : ℚ) =>
          if tok.getLast? = some '%' then jsDiv (jsParseFloat (String.mk tok)) 100
          else jsDiv (jsParseFloat (String.mk tok)) mx
        let a : JSNum :=
          if numbers.length ≥ 4 then
            let t := numbers.getD 3 []
            if t.getLast? = some '%' then jsDiv (jsParseFloat (String.mk t)) 100
            else jsParseFloat (String.mk t)
          else some 1
        { r := parseValue (numbers.getD 0 []) 255,
          g := parseValue (numbers.getD 1 []) 255,
          b := parseValue (numbers.getD 2 []) 255, a := a }
      else { r := some 0, g := some 0, b := some 0, a := some 1 }

/-- The body of the `forEach` loop of `parseShadows`, for one top-level
shadow entry: find the first color token (default `{0,0,0,0.2}`), detect
`inset`, strip the color substring and the `inset` keyword, collect the
pixel-length numbers, and build an effect when at least two are present. -/
def shadowEntryEffect (isText : Bool) (shadow : String) : Option FigmaEffect :=
  let colorMatch := findColorToken 3 (some 8) shadow.data
  let color := match colorMatch with
    | some t => parseColor (String.mk t)
    | none => { r := some 0, g := some 0, b := some 0, a := some (2/10) }
  let isInset := strContains shadow "inset"
  let cleanShadow := jsTrim (jsReplaceFirst
    (jsReplaceFirst shadow
      (match colorMatch with | some t => String.mk t | none => "") "")
    "inset" "")
  let numbers := (pxMatches cleanShadow.data).map
    (fun t => jsParseFloat (String.mk t))
  if numbers.length ≥ 2 then
    some { type := if isInset then .INNER_SHADOW else .DROP_SHADOW,
           visible := true,
           color := color,
           blendMode := .NORMAL,
           offset := { x := numbers.getD 0 none, y := numbers.getD 1 none },
           radius := if numbers.length > 2 then numbers.getD 2 none else some 0,
           spread := if !isText && numbers.length > 3 then numbers.getD 3 none
             else some 0 }
  else none

/-- `parseShadows` from the source: empty / `none` short-circuit, then the
`forEach`-with-push loop over the top-level entries. -/
def parseShadows (shadowStr : String) (isText : Bool) : List FigmaEffect :=
  if shadowStr == "" || shadowStr == "none" then []
  else
    (splitSafe shadowStr).foldl
      (fun effects shadow =>
        match shadowEntryEffect isText shadow with
        | some e => effects ++ [e]
        | none => effects) []

/-- Direction handling of the gradient parser (source lines 198–213): angle
from a `deg` first entry, from `to `-keywords (later keywords override
earlier ones, starting from the 180 default), or 180 with the first entry
dropped when it is not a recognizable color; otherwise 180 with all entries
kept as stops. -/
def gradientDirection (parts : List String) : JSNum × List String :=
  let first := parts.headD ""
  if strContains first "deg" then (jsParseFloat first, parts.drop 1)
  else if strContains first "to " then
    let a : ℚ := 180
    let a := if strContains first "top" then 0 else a
    let a := if strContains first "bottom" then 180 else a
    let a := if strContains first "left" then 270 else a
    let a := if strContains first "right" then 90 else a
    (some a, parts.drop 1)
  else if !(strContains first "rgb") && !(strContains first "#")
      && !(strContains first "hsl") then
    (some 180, parts.drop 1)
  else (some 180, parts)

/-- Handle computation of the gradient parser (source lines 215–225): the
default `[{0.5,0},{0.5,1},{1,0}]` handle set, replaced by the two horizontal
variants when `Math.abs(angleDeg % 360)` is exactly 90 or 270.  (The radian
conversion computed by the source is dead code and is not modelled.) -/
def gradientHandles (angleDeg : JSNum) : GradientHandles :=
  if jsEqB (jsAbsNum (jsRemNum angleDeg 360)) 90 then
    { p0 := { x := 0, y := 1/2 }, p1 := { x := 1, y := 1/2 },
      p2 := { x := 1, y := 0 } }
  else if jsEqB (jsAbsNum (jsRemNum angleDeg 360)) 270 then
    { p0 := { x := 1, y := 1/2 }, p1 := { x := 0, y := 1/2 },
      p2 := { x := 1, y := 0 } }
  else
    { p0 := { x := 1/2, y := 0 }, p1 := { x := 1/2, y := 1 },
      p2 := { x := 1, y := 0 } }

/-- One gradient stop (the body of the `stops.map` callback): first color
token (unbounded hex length), default position `index / (stops.length − 1)`
(NaN for a single stop), overridden by the first `%`-number found anywhere
in the entry, divided by 100. -/
def stopFor (stopCount index : ℕ) (stop : String) : FigmaGradientStop :=
  let colorMatch := findColorToken 1 none stop.data
  let color := match colorMatch with
    | some t => parseColor (String.mk t)
    | none => { r := some 0, g := some 0, b := some 0, a := some 1 }
  let position : JSNum :=
    if stopCount = 1 then none
    else some ((index : ℚ) / ((stopCount : ℚ) - 1))
  let position := match findPctRun stop.data with
    | some run => jsDiv (jsParseFloat (String.mk run)) 100
    | none => position
  { position := position, color := color }

/-- `stops.map((stop, index) => ...)` with explicit index threading. -/
def gradientStopsGo (stopCount : ℕ) : ℕ → List String → List FigmaGradientStop
  | _, [] => []
  | i, stop :: rest => stopFor stopCount i stop :: gradientStopsGo stopCount (i + 1) rest

/-- The ordered stop list of a gradient. -/
def gradientStopsOf (stops : List String) : List FigmaGradientStop :=
  gradientStopsGo stops.length 0 stops

/-- The `GRADIENT_LINEAR` paint built from the contents of a
`linear-gradient(...)` value. -/
def gradientLinearPaint (content : String) : FigmaPaint :=
  let parts := splitSafe content
  let dir := gradientDirection parts
  { type := .GRADIENT_LINEAR,
    gradientStops := some (gradientStopsOf dir.2),
    gradientHandlePositions := some (gradientHandles dir.1),
    opacity := some (some 1) }

/-- `parseFills` from the source: a gradient paint when `backgroundImage`
contains `linear-gradient` and the regex capture is nonempty, then a solid
paint when the parsed `backgroundColor` has alpha > 0, with opacity equal to
that alpha. -/
def parseFills (style : CSSStyleDeclaration) : List FigmaPaint :=
  let gradientFills : List FigmaPaint :=
    if style.backgroundImage != "" &&
        strContains style.backgroundImage "linear-gradient" then
      match linearGradientContent style.backgroundImage with
      | some content =>
        if content != "" then [gradientLinearPaint content] else []
      | none => []
    else []
  let color := parseColor style.backgroundColor
  let solidFills : List FigmaPaint :=
    if jsGtB color.a 0 then
      [{ type := .SOLID, color := some color, opacity := some color.a }]
    else []
  gradientFills ++ solidFills

/-- `getLayerName` from the source, taking the element attributes it reads:
a nonempty `aria-label` wins, then tag hints, then class hints, then the
capitalized tag name with `div` mapped to `Frame`. -/
def getLayerName (tagName : String) (ariaLabel : Option String)
    (classes : List String) : String :=
  if (ariaLabel.getD "") != "" then ariaLabel.getD ""
  else
    let tag := lowerStr tagName
    if tag == "button" then "Button"
    else if tag == "svg" then "Icon"
    else if tag == "img" then "Image"
    else if tag == "input" then "Input"
    else if classes.contains "lucide" || classes.contains "icon" then "Icon"
    else if classes.contains "badge" then "Badge"
    else if tag == "div" then "Frame"
    else capitalizeFirst tag

/-- The text-leaf test of `traverse`: exactly one child node, which is a text
run, and a nonempty trimmed `innerText`. -/
def isTextLeaf (innerText : String) (childNodes : List DOMNode) : Bool :=
  match childNodes with
  | [DOMNode.textNode _] => (jsTrim innerText).length > 0
  | _ => false

/-- The Text-node fields built by `traverse` (source lines 291–314): the
record creation followed by the conditional `effects` assignment. -/
def textCore (innerText : String) (style : CSSStyleDeclaration)
    (rect : DOMRect) : FigmaNodeCore :=
  let core : FigmaNodeCore :=
    { type := .TEXT,
      name := innerText,
      x := some rect.x, y := some rect.y,
      width := rect.width, height := rect.height,
      opacity := some (jsParseFloat style.opacity),
      characters := some innerText,
      fills := some [{ type := .SOLID, color := some (parseColor style.color) }],
      fontSize := some (jsParseFloat style.fontSize),
      fontName := some
        { family := stripQuotes (firstCommaSegment style.fontFamily),
          style := if jsGeB (jsParseIntDec style.fontWeight) 600 then "Bold"
            else "Regular" },
      textAlignHorizontal := some
        (if style.textAlign == "center" then .CENTER
         else if style.textAlign == "right" then .RIGHT else .LEFT),
      textAlignVertical := some .CENTER }
  if style.textShadow != "" && style.textShadow != "none" then
    { core with effects := some (parseShadows style.textShadow true) }
  else core

/-- The Frame fields built by `traverse` (source lines 321–389): the record
creation followed by the fills, border, radius, box-shadow and auto-layout
assignments. -/
def frameCore (tagName : String) (ariaLabel : Option String)
    (classes : List String) (style : CSSStyleDeclaration)
    (rect : DOMRect) : FigmaNodeCore :=
  let isSvg := lowerStr tagName == "svg"
  let core : FigmaNodeCore :=
    { type := .FRAME,
      name := getLayerName tagName ariaLabel classes,
      x := some rect.x, y := some rect.y,
      width := rect.width, height := rect.height,
      visible := some (style.visibility != "hidden" && style.display != "none"),
      opacity := some (jsParseFloat style.opacity),
      blendMode := some .PASS_THROUGH,
      fills := some [] }
  let core := { core with fills := some (parseFills style) }
  let core := if style.borderWidth != "" &&
      jsGtB (jsParseFloat style.borderWidth) 0 &&
      style.borderColor != "transparent" then
      let strokePaint : FigmaPaint :=
        { type := .SOLID, color := some (parseColor style.borderColor) }
      { core with strokes := some [strokePaint], strokeWeight := some (jsParseFloat style.borderWidth) }
    else core
  let core := if style.borderRadius != "" then
      { core with cornerRadius := some (jsParseFloat style.borderRadius) }
    else core
  let core := if style.boxShadow != "" && style.boxShadow != "none" then
      { core with effects := some (parseShadows style.boxShadow false) }
    else core
  let isFlex := style.display == "flex" || style.display == "inline-flex"
  if isFlex && !isSvg then
    { core with
      layoutMode := some (if style.flexDirection == "column" then .VERTICAL
        else .HORIZONTAL),
      itemSpacing := some (jsParseFloat
        (if style.gap != "" then style.gap else "0")),
      primaryAxisSizingMode := some .AUTO,
      counterAxisSizingMode := some .AUTO,
      paddingLeft := some (jsParseFloat
        (if style.paddingLeft != "" then style.paddingLeft else "0")),
      paddingRight := some (jsParseFloat
        (if style.paddingRight != "" then style.paddingRight else "0")),
      paddingTop := some (jsParseFloat
        (if style.paddingTop != "" then style.paddingTop else "0")),
      paddingBottom := some (jsParseFloat
        (if style.paddingBottom != "" then style.paddingBottom else "0")),
      primaryAxisAlignItems := some
        (if style.justifyContent == "center" then .CENTER
         else if style.justifyContent == "space-between" then .SPACE_BETWEEN
         else if style.justifyContent == "flex-end" then .MAX
         else .MIN),
      counterAxisAlignItems := some
        (if style.alignItems == "center" then .CENTER
         else if style.alignItems == "flex-end" then .MAX
         else .MIN) }
  else { core with layoutMode := some .NONE }

mutual

/-- `traverse` from the source, on a DOM node (`none` on a bare text run,
which the source never visits since recursion is over element children
only).  The Text and Frame field assignments are factored into `textCore`
and `frameCore`; recursion into element children is skipped for svg
roots. -/
def traverse : DOMNode → Option FigmaNode
  | .textNode _ => none
  | .elementNode tagName ariaLabel classes innerText style rect childNodes =>
    if isTextLeaf innerText childNodes then
      some (.mk (textCore innerText style rect) none)
    else
      let children : List FigmaNode :=
        if lowerStr tagName == "svg" then [] else traverseChildren childNodes
      some (.mk (frameCore tagName ariaLabel classes style rect)
        (some children))

/-- `children.map(child => traverse(child))` over the element children
(`Array.from(el.children)` keeps element nodes only; mapping the empty list
coincides with the source's skipped reassignment). -/
def traverseChildren : List DOMNode → List FigmaNode
  | [] => []
  | k :: rest =>
    match traverse k with
    | some n => n :: traverseChildren rest
    | none => traverseChildren rest

end

/-- `generateFigmaJson`: convert the root element.  The final
`JSON.stringify` pretty-printing is not modelled; the claims concern the
node tree. -/
def generateFigmaJson (element : DOMNode) : Option FigmaNode :=
  traverse element

mutual

/-- All nodes of an emitted tree: the node itself and, recursively, the
nodes of its `children` list. -/
def nodesIn : FigmaNode → List FigmaNode
  | .mk core none => [.mk core none]
  | .mk core (some kids) => .mk core (some kids) :: nodesInAux kids

/-- Nodes of a list of trees. -/
def nodesInAux : List FigmaNode → List FigmaNode
  | [] => []
  | n :: rest => nodesIn n ++ nodesInAux rest

end

/-- Boolean unit-interval test on a JavaScript number (NaN is outside). -/
def inUnitNumB (x : JSNum) : Bool :=
  match x with
  | none => false
  | some v => decide (0 ≤ v) && decide (v ≤ 1)

/-- Boolean unit-interval test on all four channels of a color. -/
def colorInUnitB (c : FigmaColor) : Bool :=
  inUnitNumB c.r && inUnitNumB c.g && inUnitNumB c.b && inUnitNumB c.a

/-- The two horizontal gradient-handle sets (left-to-right and
right-to-left): the start and end handles sit at mid height on opposite
vertical edges. -/
def horizontalHandleSet (h : GradientHandles) : Prop :=
  h = { p0 := { x := 0, y := 1/2 }, p1 := { x := 1, y := 1/2 },
        p2 := { x := 1, y := 0 } } ∨
  h = { p0 := { x := 1, y := 1/2 }, p1 := { x := 0, y := 1/2 },
        p2 := { x := 1, y := 0 } }

/-- The vertical (top-to-bottom) handle set, which is also the fixed set the
source uses as its approximation for every non-axis angle. -/
def verticalHandleSet : GradientHandles :=
  { p0 := { x := 1/2, y := 0 }, p1 := { x := 1/2, y := 1 },
    p2 := { x := 1, y := 0 } }

/-- Membership in the angle class `±90° (mod 360°)`. -/
def isHorizontalAngle (a : ℚ) : Prop :=
  ∃ k : ℤ, a = 90 + 360 * k ∨ a = -90 + 360 * k

theorem ratTrunc_add_int (q : ℚ) (k : ℤ) : ratTrunc (q + k) =
    (if 0 ≤ q + (k:ℚ) then ⌊q⌋ + k else ⌈q⌉ + k) := by
  unfold ratTrunc
  split_ifs with h
  · exact Int.floor_add_int q k
  · exact Int.ceil_add_int q k

theorem ratTrunc_horizontal_iff (a : ℚ) :
    (|a - 360 * (ratTrunc (a / 360) : ℚ)| = 90 ∨
     |a - 360 * (ratTrunc (a / 360) : ℚ)| = 270) ↔ isHorizontalAngle a := by
  have hf1 : (⌊(1:ℚ)/4⌋ : ℤ) = 0 := by decide
  have hc1 : (⌈(1:ℚ)/4⌉ : ℤ) = 1 := by decide
  have hf2 : (⌊-((1:ℚ)/4)⌋ : ℤ) = -1 := by decide
  have hc2 : (⌈-((1:ℚ)/4)⌉ : ℤ) = 0 := by decide
  constructor
  · intro h
    rcases h with h | h
    · rcases (abs_eq (by norm_num : (0:ℚ) ≤ 90)).mp h with h' | h'
      · exact ⟨ratTrunc (a / 360), Or.inl (by linarith)⟩
      · exact ⟨ratTrunc (a / 360), Or.inr (by linarith)⟩
    · rcases (abs_eq (by norm_num : (0:ℚ) ≤ 270)).mp h with h' | h'
      · exact ⟨ratTrunc (a / 360) + 1, Or.inr (by push_cast; linarith)⟩
      · exact ⟨ratTrunc (a / 360) - 1, Or.inl (by push_cast; linarith)⟩
  · rintro ⟨k, hk | hk⟩
    · have hq : a / 360 = 1/4 + (k:ℚ) := by rw [hk]; ring
      rw [hq, ratTrunc_add_int]
      rcases le_or_lt 0 k with hk0 | hk0
      · rw [if_pos (by have h2 : (0:ℚ) ≤ (k:ℚ) := Int.cast_nonneg.mpr hk0; linarith)]
        left
        rw [hk]
        push_cast [hf1]
        rw [show (90:ℚ) + 360 * k - 360 * (0 + k) = 90 from by ring]
        norm_num
      · have hk1 : k ≤ -1 := by omega
        rw [if_neg (by
            have h2 : (k:ℚ) ≤ -1 := by exact_mod_cast Int.cast_le.mpr hk1
            linarith)]
        right
        rw [hk]
        push_cast [hc1]
        rw [show (90:ℚ) + 360 * k - 360 * (1 + k) = -270 from by ring]
        norm_num
    · have hq : a / 360 = -(1/4) + (k:ℚ) := by rw [hk]; ring
      rw [hq, ratTrunc_add_int]
      rcases le_or_lt 1 k with hk0 | hk0
      · rw [if_pos (by
            have h2 : (1:ℚ) ≤ (k:ℚ) := by exact_mod_cast Int.cast_le.mpr hk0
            linarith)]
        right
        rw [hk]
        push_cast [hf2]
        rw [show (-90:ℚ) + 360 * k - 360 * (-1 + k) = 270 from by ring]
        norm_num
      · have hk1 : k ≤ 0 := by omega
        rw [if_neg (by
            have h2 : (k:ℚ) ≤ 0 := by exact_mod_cast Int.cast_le.mpr hk1
            linarith)]
        left
        rw [hk]
        push_cast [hc2]
        rw [show (-90:ℚ) + 360 * k - 360 * (0 + k) = -90 from by ring]
        norm_num

theorem gradientHandles_cases (a : ℚ) :
    gradientHandles (some a) =
      (if |a - 360 * (ratTrunc (a / 360) : ℚ)| = 90 then
        { p0 := { x := 0, y := 1/2 }, p1 := { x := 1, y := 1/2 },
          p2 := { x := 1, y := 0 } }
      else if |a - 360 * (ratTrunc (a / 360) : ℚ)| = 270 then
        { p0 := { x := 1, y := 1/2 }, p1 := { x := 0, y := 1/2 },
          p2 := { x := 1, y := 0 } }
      else verticalHandleSet) := by
  simp only [gradientHandles, jsEqB, jsAbsNum, jsRemNum, Option.map_some',
    verticalHandleSet, decide_eq_true_eq]

/-- C4: for every parsed linear-gradient angle, the computed handle triple is
one of the two exact horizontal sets precisely when the angle is ±90° modulo
360°; every other angle — in particular 0° and 180°, for which the set is the
exact vertical axis — receives the one fixed (vertical-shaped)
diagonal-approximation set. -/
theorem C4_gradient_handle_sets :
    (∀ a : ℚ,
      (horizontalHandleSet (gradientHandles (some a)) ↔ isHorizontalAngle a) ∧
      (¬ isHorizontalAngle a → gradientHandles (some a) = verticalHandleSet)) ∧
    gradientHandles (some 0) = verticalHandleSet ∧
    gradientHandles (some 180) = verticalHandleSet := by
  refine ⟨fun a => ?_, by decide, by decide⟩
  rw [gradientHandles_cases]
  rw [← ratTrunc_horizontal_iff]
  constructor
  · constructor
    · intro h
      split_ifs at h with h90 h270
      · exact Or.inl h90
      · exact Or.inr h270
      · unfold horizontalHandleSet at h
        exact absurd h (by decide)
    · intro h
      rcases h with h | h
      · rw [if_pos h]; exact Or.inl rfl
      · rw [if_neg (by rw [h]; norm_num), if_pos h]; exact Or.inr rfl
  · intro h
    rw [if_neg (fun hc => h (Or.inl hc)), if_neg (fun hc => h (Or.inr hc))]

/-- Witness for C4: 90° and −90° produce horizontal handle sets, and the
off-axis angle 45° produces the fixed default set. -/
theorem C4_gradient_handle_sets_witness :
    horizontalHandleSet (gradientHandles (some 90)) ∧
    horizontalHandleSet (gradientHandles (some (-90))) ∧
    gradientHandles (some 45) = verticalHandleSet := by
  refine ⟨((C4_gradient_handle_sets.1 90).1).mpr ⟨0, Or.inl (by norm_num)⟩,
          ((C4_gradient_handle_sets.1 (-90)).1).mpr ⟨0, Or.inr (by norm_num)⟩,
          (C4_gradient_handle_sets.1 45).2 ?_⟩
  rintro ⟨k, h | h⟩
  · have h3 : (360 * k : ℤ) = -45 := by
      exact_mod_cast (by push_cast; linarith : ((360 * k : ℤ) : ℚ) = -45)
    omega
  · have h3 : (360 * k : ℤ) = 135 := by
      exact_mod_cast (by push_cast; linarith : ((360 * k : ℤ) : ℚ) = 135)
    omega

theorem getD_irrel {α : Type} (l : List α) (i : ℕ) (h : i < l.length) (d d' : α) :
    l.getD i d = l.getD i d' := by
  simp [List.getD_eq_getElem?_getD, List.getElem?_eq_getElem h]

theorem getD_oob {α : Type} (l : List α) (i : ℕ) (h : l.length ≤ i) (d : α) :
    l.getD i d = d := by
  simp [List.getD_eq_getElem?_getD, List.getElem?_eq_none h]

/-- A shadow entry after the first color token and the `inset` keyword are
stripped and the result is trimmed. -/
def strippedShadowEntry (entry : String) : String :=
  jsTrim (jsReplaceFirst
    (jsReplaceFirst entry
      (match findColorToken 3 (some 8) entry.data with
       | some t => String.mk t
       | none => "") "")
    "inset" "")

/-- The pixel-suffixed numbers of a stripped shadow entry, in order. -/
def shadowNums (entry : String) : List JSNum :=
  (pxMatches (strippedShadowEntry entry).data).map
    (fun t => jsParseFloat (String.mk t))

theorem shadowEntryEffect_none_entry (b : Bool) :
    shadowEntryEffect b "none" = none := by
  simp only [shadowEntryEffect]
  rw [if_neg (by decide)]

/-- C7: the shadow parser maps each top-level entry independently; for one
entry, after the first color token and the `inset` keyword are stripped, the
px-suffixed numbers are taken in order as offset-x, offset-y, blur radius and
(box-shadow only) spread, missing trailing values defaulting to 0; an entry
with fewer than two such numbers contributes no effect; and the box-shadow
`2px 4px 6px rgba(0,0,0,0.2)` yields exactly one DropShadow with offset
(2,4), radius 6, spread 0 and color {0,0,0,0.2}. -/
theorem C7_shadow_entry_numbers :
    (∀ (s : String) (isText : Bool),
      parseShadows s isText = (splitSafe s).filterMap (shadowEntryEffect isText)) ∧
    (∀ (isText : Bool) (entry : String),
      ((shadowNums entry).length < 2 → shadowEntryEffect isText entry = none) ∧
      (2 ≤ (shadowNums entry).length → shadowEntryEffect isText entry = some
        { type := if strContains entry "inset" then .INNER_SHADOW else .DROP_SHADOW,
          visible := true,
          color := match findColorToken 3 (some 8) entry.data with
            | some t => parseColor (String.mk t)
            | none => { r := some 0, g := some 0, b := some 0, a := some (2/10) },
          blendMode := .NORMAL,
          offset := { x := (shadowNums entry).getD 0 none,
                      y := (shadowNums entry).getD 1 none },
          radius := (shadowNums entry).getD 2 (some 0),
          spread := if isText then some 0
            else (shadowNums entry).getD 3 (some 0) })) ∧
    parseShadows "2px 4px 6px rgba(0,0,0,0.2)" false =
      [{ type := .DROP_SHADOW, visible := true,
         color := { r := some 0, g := some 0, b := some 0, a := some (1/5) },
         blendMode := .NORMAL, offset := { x := some 2, y := some 4 },
         radius := some 6, spread := some 0 }] := by
  refine ⟨fun s isText => ?_, fun isText entry => ?_, by decide⟩
  · unfold parseShadows
    split_ifs with h
    · simp only [Bool.or_eq_true, beq_iff_eq] at h
      rcases h with h | h <;> subst h
      · rw [show splitSafe "" = [] from by decide]
        rfl
      · rw [show splitSafe "none" = ["none"] from by decide,
          List.filterMap_cons, shadowEntryEffect_none_entry]
        rfl
    · suffices H : ∀ (l : List String) (init : List FigmaEffect),
          l.foldl (fun effects shadow =>
            match shadowEntryEffect isText shadow with
            | some e => effects ++ [e]
            | none => effects) init
            = init ++ l.filterMap (shadowEntryEffect isText) by
        simpa using H (splitSafe s) []
      intro l
      induction l with
      | nil => simp
      | cons x rest ih =>
        intro init
        simp only [List.foldl_cons, List.filterMap_cons]
        cases hx : shadowEntryEffect isText x with
        | none => simp [ih]
        | some e => simp [ih]
  · have hnums : shadowNums entry = (pxMatches (strippedShadowEntry entry).data).map
        (fun t => jsParseFloat (String.mk t)) := rfl
    unfold strippedShadowEntry at hnums
    constructor
    · intro hlt
      rw [hnums] at hlt
      simp only [shadowEntryEffect]
      rw [if_neg (by omega)]
    · intro hge
      have hge' := hge
      rw [hnums] at hge'
      simp only [shadowEntryEffect]
      rw [if_pos hge']
      congr 1
      rw [FigmaEffect.mk.injEq]
      refine ⟨rfl, rfl, rfl, rfl, ?_, ?_, ?_⟩
      · rw [JSPoint.mk.injEq]
        constructor <;> (rw [hnums])
      · rw [hnums]
        split_ifs with h2
        · apply getD_irrel
          omega
        · symm
          apply getD_oob
          omega
      · rw [hnums]
        cases isText with
        | false =>
          rw [if_neg (by decide : ¬ (false = true))]
          simp only [Bool.not_false, Bool.true_and]
          split_ifs with h2
          · simp only [decide_eq_true_eq] at h2
            apply getD_irrel
            omega
          · simp only [decide_eq_true_eq] at h2
            symm
            apply getD_oob
            omega
        | true => simp

/-- Witness for C7: the example entry produces the described effect, and an
entry with a single pixel number produces none. -/
theorem C7_shadow_entry_numbers_witness :
    shadowEntryEffect false "2px 4px 6px rgba(0,0,0,0.2)" = some
      { type := .DROP_SHADOW, visible := true,
        color := { r := some 0, g := some 0, b := some 0, a := some (1/5) },
        blendMode := .NORMAL, offset := { x := some 2, y := some 4 },
        radius := some 6, spread := some 0 } ∧
    shadowEntryEffect false "5px solid" = none := by
  constructor
  · have h := (C7_shadow_entry_numbers.2.1 false "2px 4px 6px rgba(0,0,0,0.2)").2
      (by decide)
    rw [h]
    decide
  · exact (C7_shadow_entry_numbers.2.1 false "5px solid").1 (by decide)

/-- The amended gradient condition: the background image contains the
substring `linear-gradient` and the `linear-gradient\((.*)\)` capture is
nonempty. -/
def gradientPaintCondB (bgImage : String) : Bool :=
  strContains bgImage "linear-gradient" &&
    (linearGradientContent bgImage).getD "" != ""

theorem listContains_nil (pat : List Char) (h : pat ≠ []) :
    listContains [] pat = false := by
  unfold listContains
  cases pat with
  | nil => exact absurd rfl h
  | cons c r => rfl

theorem strContains_ne_empty (s pat : String) (hp : pat.data ≠ [])
    (h : strContains s pat = true) : s ≠ "" := by
  intro he
  rw [he] at h
  unfold strContains at h
  rw [listContains_nil _ hp] at h
  exact Bool.false_ne_true h

/-- C5 (amended): the fill resolver emits first a GradientLinear paint
exactly when the background image contains `linear-gradient` with a nonempty
parenthesized argument, then a Solid paint exactly when the parsed background
color has alpha > 0, that Solid paint carrying the parsed color and an
opacity equal to its alpha; no other paints occur. -/
theorem C5_fill_order (st : CSSStyleDeclaration) :
    ((parseFills st).map (fun p => p.type) =
      (if gradientPaintCondB st.backgroundImage then [.GRADIENT_LINEAR] else [])
        ++ (if jsGtB (parseColor st.backgroundColor).a 0 then [.SOLID] else [])) ∧
    (∀ p ∈ parseFills st, p.type = .SOLID →
      p.color = some (parseColor st.backgroundColor) ∧
      p.opacity = some ((parseColor st.backgroundColor).a)) := by
  have hgrad : (if st.backgroundImage != "" &&
        strContains st.backgroundImage "linear-gradient" then
        (match linearGradientContent st.backgroundImage with
         | some content =>
           if content != "" then [gradientLinearPaint content] else []
         | none => [])
      else ([] : List FigmaPaint)) =
      (if gradientPaintCondB st.backgroundImage then
        [gradientLinearPaint ((linearGradientContent st.backgroundImage).getD "")]
      else []) := by
    by_cases hsc : strContains st.backgroundImage "linear-gradient" = true
    · have hne : st.backgroundImage ≠ "" :=
        strContains_ne_empty _ _ (by decide) hsc
      rw [if_pos (by rw [Bool.and_eq_true, bne_iff_ne]; exact ⟨hne, hsc⟩)]
      cases hc : linearGradientContent st.backgroundImage with
      | none =>
        rw [show gradientPaintCondB st.backgroundImage = false from ?_]
        · rw [if_neg (by simp)]
        · unfold gradientPaintCondB
          rw [hc]
          simp
      | some content =>
        unfold gradientPaintCondB
        rw [hc]
        simp only [Option.getD_some]
        show (if (content != "") = true then [gradientLinearPaint content] else [])
          = _
        by_cases hco : content = ""
        · subst hco
          simp
        · rw [if_pos (bne_iff_ne .. |>.mpr hco),
            if_pos (Bool.and_eq_true .. |>.mpr ⟨hsc, bne_iff_ne .. |>.mpr hco⟩)]
    · rw [if_neg (by simp [hsc]), if_neg (by unfold gradientPaintCondB; simp [hsc])]
  constructor
  · unfold parseFills
    simp only [List.map_append, hgrad]
    congr 1
    · by_cases hg : gradientPaintCondB st.backgroundImage = true
      · rw [if_pos hg, if_pos hg]
        rfl
      · rw [if_neg hg, if_neg hg]
        rfl
    · by_cases hs : jsGtB (parseColor st.backgroundColor).a 0 = true
      · rw [if_pos hs, if_pos hs]
        rfl
      · rw [if_neg hs, if_neg hs]
        rfl
  · intro p hp htype
    unfold parseFills at hp
    rw [hgrad] at hp
    rcases List.mem_append.mp hp with hmem | hmem
    · exfalso
      by_cases hg : gradientPaintCondB st.backgroundImage = true
      · rw [if_pos hg] at hmem
        rcases List.mem_singleton.mp hmem with rfl
        simp [gradientLinearPaint] at htype
      · rw [if_neg hg] at hmem
        exact absurd hmem (List.not_mem_nil p)
    · by_cases hs : jsGtB (parseColor st.backgroundColor).a 0 = true
      · rw [if_pos hs] at hmem
        rcases List.mem_singleton.mp hmem with rfl
        exact ⟨rfl, rfl⟩
      · rw [if_neg hs] at hmem
        exact absurd hmem (List.not_mem_nil p)

/-- A background image that contains the substring `linear-gradient` but has
no parenthesized argument. -/
def C5cexStyle : CSSStyleDeclaration := { backgroundImage := "linear-gradient" }

/-- Counterexample for C5 as stated: the background image contains a
`linear-gradient` substring, yet the fill list is empty — no GradientLinear
paint is produced. -/
theorem C5_fill_order_counterexample :
    strContains C5cexStyle.backgroundImage "linear-gradient" = true ∧
    parseFills C5cexStyle = [] := by decide

/-- A style with both a gradient and a translucent solid background. -/
def C5witStyle : CSSStyleDeclaration :=
  { backgroundImage := "linear-gradient(to right, red, blue)",
    backgroundColor := "rgba(16,32,48,0.5)" }

/-- Witness for C5: a gradient plus translucent solid background produces the
paint list [GradientLinear, Solid], the Solid carrying opacity 1/2. -/
theorem C5_fill_order_witness :
    (parseFills C5witStyle).map (fun p => p.type) =
      [.GRADIENT_LINEAR, .SOLID] ∧
    (∀ p ∈ parseFills C5witStyle, p.type = .SOLID →
      p.opacity = some ((parseColor C5witStyle.backgroundColor).a)) ∧
    (parseColor C5witStyle.backgroundColor).a = some (1/2) := by
  have h := C5_fill_order C5witStyle
  refine ⟨by rw [h.1]; decide, fun p hp ht => (h.2 p hp ht).2, by decide⟩

theorem gradientStopsGo_get? (n : ℕ) :
    ∀ (l : List String) (k i : ℕ),
      (gradientStopsGo n k l).get? i = (l.get? i).map (fun s => stopFor n (k + i) s) := by
  intro l
  induction l with
  | nil => intro k i; simp [gradientStopsGo]
  | cons x rest ih =>
    intro k i
    cases i with
    | zero => simp [gradientStopsGo]
    | succ j =>
      simp only [gradientStopsGo, List.get?_cons_succ]
      rw [ih (k + 1) j, show k + 1 + j = k + (j + 1) from by omega]

/-- C6 (amended): a gradient stop's position comes from the first `%`-number
found anywhere in the stop entry (which may sit inside a percentage-notation
color token), divided by 100; only a stop containing no `%` at all defaults
to index/(numberOfStops − 1) (NaN for a single stop); and
`linear-gradient(to right, red, blue)` yields a horizontal handle axis with
stops at positions 0 and 1. -/
theorem C6_stop_positions :
    (∀ (stops : List String) (i : ℕ) (entry : String) (stop : FigmaGradientStop),
      stops.get? i = some entry →
      (gradientStopsOf stops).get? i = some stop →
      stop.position = (match findPctRun entry.data with
        | some run => jsDiv (jsParseFloat (String.mk run)) 100
        | none => if stops.length = 1 then none
            else some ((i : ℚ) / ((stops.length : ℚ) - 1)))) ∧
    ((gradientLinearPaint "to right, red, blue").gradientStops.getD []).map
        (fun st => st.position) = [some 0, some 1] ∧
    horizontalHandleSet ((gradientLinearPaint "to right, red, blue").gradientHandlePositions.getD
      verticalHandleSet) := by
  refine ⟨fun stops i entry stop hentry hstop => ?_, by decide,
    by unfold horizontalHandleSet; decide⟩
  unfold gradientStopsOf at hstop
  rw [gradientStopsGo_get? stops.length stops 0 i, hentry] at hstop
  simp only [Option.map_some', Option.some.injEq] at hstop
  subst hstop
  rw [Nat.zero_add]
  unfold stopFor
  cases h : findPctRun entry.data <;> simp [h]

/-- Counterexample for C6 as stated: the first stop of
`to right, rgb(50%,0%,0%), blue` carries no explicit trailing `%` position,
so the claim assigns it the default position 0/(2−1) = 0; the code instead
picks up the `50%` inside the color function and emits position 1/2. -/
theorem C6_stop_positions_counterexample :
    (gradientDirection (splitSafe "to right, rgb(50%,0%,0%), blue")).2 =
      ["rgb(50%,0%,0%)", "blue"] ∧
    "rgb(50%,0%,0%)".data.getLast? ≠ some '%' ∧
    ((gradientLinearPaint "to right, rgb(50%,0%,0%), blue").gradientStops.getD
      []).map (fun st => st.position) = [some (1/2), some 1] ∧
    (some (1/2) : JSNum) ≠ some ((0 : ℚ) / ((2 : ℚ) - 1)) := by decide

/-- Witness for C6: an explicit `30%` yields position 3/10, and a stop with
no `%` defaults to index/(n−1) = 1. -/
theorem C6_stop_positions_witness :
    (gradientStopsOf ["red 30%", "blue"]).map (fun st => st.position) =
      [some (3/10), some 1] := by
  have h0 := C6_stop_positions.1 ["red 30%", "blue"] 0 "red 30%"
    (stopFor 2 0 "red 30%") (by decide) (by decide)
  have h1 := C6_stop_positions.1 ["red 30%", "blue"] 1 "blue"
    (stopFor 2 1 "blue") (by decide) (by decide)
  show [(stopFor 2 0 "red 30%").position, (stopFor 2 1 "blue").position] = _
  rw [h0, h1]
  decide

theorem frameCore_strokes (tagName : String) (ariaLabel : Option String)
    (classes : List String) (style : CSSStyleDeclaration) (rect : DOMRect) :
    (frameCore tagName ariaLabel classes style rect).strokes =
      (if style.borderWidth != "" && jsGtB (jsParseFloat style.borderWidth) 0 &&
          style.borderColor != "transparent" then
        some [{ type := .SOLID, color := some (parseColor style.borderColor) }]
      else none) := by
  unfold frameCore
  simp only [apply_ite FigmaNodeCore.strokes, ite_self]

theorem frameCore_strokeWeight (tagName : String) (ariaLabel : Option String)
    (classes : List String) (style : CSSStyleDeclaration) (rect : DOMRect) :
    (frameCore tagName ariaLabel classes style rect).strokeWeight =
      (if style.borderWidth != "" && jsGtB (jsParseFloat style.borderWidth) 0 &&
          style.borderColor != "transparent" then
        some (jsParseFloat style.borderWidth)
      else none) := by
  unfold frameCore
  simp only [apply_ite FigmaNodeCore.strokeWeight, ite_self]

/-- C2 draft. -/
theorem traverse_elementNode (tagName : String) (ariaLabel : Option String)
    (classes : List String) (innerText : String) (style : CSSStyleDeclaration)
    (rect : DOMRect) (childNodes : List DOMNode) :
    traverse (DOMNode.elementNode tagName ariaLabel classes innerText style
      rect childNodes) =
      (if isTextLeaf innerText childNodes then
        some (.mk (textCore innerText style rect) none)
      else
        some (.mk (frameCore tagName ariaLabel classes style rect)
          (some (if lowerStr tagName == "svg" then []
            else traverseChildren childNodes)))) := rfl

/-- C2 (amended): a Frame's stroke — exactly one Solid paint from the border
color plus a strokeWeight from the border width — is set if and only if the
computed border width string is nonempty and parses to a value > 0 and the
computed border color is not the literal keyword `transparent` (the parsed
border color's alpha is not inspected); and a non-text element is emitted
with exactly these Frame fields. -/
theorem C2_border_stroke :
    (∀ (tagName : String) (ariaLabel : Option String) (classes : List String)
      (style : CSSStyleDeclaration) (rect : DOMRect),
      (((frameCore tagName ariaLabel classes style rect).strokes =
          some [{ type := .SOLID, color := some (parseColor style.borderColor) }] ∧
        (frameCore tagName ariaLabel classes style rect).strokeWeight =
          some (jsParseFloat style.borderWidth))
       ↔ (style.borderWidth ≠ "" ∧ jsGtB (jsParseFloat style.borderWidth) 0 = true ∧
          style.borderColor ≠ "transparent")) ∧
      (¬ (style.borderWidth ≠ "" ∧ jsGtB (jsParseFloat style.borderWidth) 0 = true ∧
          style.borderColor ≠ "transparent") →
        (frameCore tagName ariaLabel classes style rect).strokes = none ∧
        (frameCore tagName ariaLabel classes style rect).strokeWeight = none)) ∧
    (∀ (tagName : String) (ariaLabel : Option String) (classes : List String)
      (innerText : String) (style : CSSStyleDeclaration) (rect : DOMRect)
      (childNodes : List DOMNode) (node : FigmaNode),
      isTextLeaf innerText childNodes = false →
      traverse (DOMNode.elementNode tagName ariaLabel classes innerText style
        rect childNodes) = some node →
      node.core = frameCore tagName ariaLabel classes style rect) := by
  constructor
  · intro tagName ariaLabel classes style rect
    rw [frameCore_strokes, frameCore_strokeWeight]
    by_cases hb : (style.borderWidth != "" &&
        jsGtB (jsParseFloat style.borderWidth) 0 &&
        style.borderColor != "transparent") = true
    · have hb' : style.borderWidth ≠ "" ∧
          jsGtB (jsParseFloat style.borderWidth) 0 = true ∧
          style.borderColor ≠ "transparent" := by
        simp only [Bool.and_eq_true, bne_iff_ne] at hb
        exact ⟨hb.1.1, hb.1.2, hb.2⟩
      simp only [if_pos hb]
      exact ⟨(iff_of_true ⟨trivial, trivial⟩ hb'), fun hc => absurd hb' hc⟩
    · have hb' : ¬ (style.borderWidth ≠ "" ∧
          jsGtB (jsParseFloat style.borderWidth) 0 = true ∧
          style.borderColor ≠ "transparent") := by
        intro hc
        exact hb (by simp only [Bool.and_eq_true, bne_iff_ne]
                     exact ⟨⟨hc.1, hc.2.1⟩, hc.2.2⟩)
      simp only [if_neg hb]
      refine ⟨iff_of_false (fun hc => by simp at hc) hb', fun _ => ⟨trivial, trivial⟩⟩
  · intro tagName ariaLabel classes innerText style rect childNodes node hnt h
    rw [traverse_elementNode] at h
    simp only [hnt, Bool.false_eq_true, if_false, Option.some.injEq] at h
    subst h
    rfl

/-- A border whose computed color is fully transparent in rgba notation. -/
def C2cexStyle : CSSStyleDeclaration :=
  { borderWidth := "2px", borderColor := "rgba(0, 0, 0, 0)" }

/-- The element carrying `C2cexStyle`. -/
def C2cexEl : DOMNode := DOMNode.elementNode "div" none [] "" C2cexStyle {} []

/-- Counterexample for C2 as stated: the computed border color
`rgba(0, 0, 0, 0)` is fully transparent (parsed alpha 0), yet the emitted
Frame still carries a stroke and a strokeWeight, because the source only
compares the border color against the literal keyword `transparent`. -/
theorem C2_border_stroke_counterexample :
    (parseColor C2cexStyle.borderColor).a = some 0 ∧
    (generateFigmaJson C2cexEl).map (fun n => n.core.strokes) =
      some (some [{ type := .SOLID, color := some (parseColor "rgba(0, 0, 0, 0)") }]) ∧
    (generateFigmaJson C2cexEl).map (fun n => n.core.strokeWeight) =
      some (some (some 2)) := by decide

/-- An opaque 2px border. -/
def C2witStyle : CSSStyleDeclaration :=
  { borderWidth := "2px", borderColor := "#000" }

/-- Witness for C2: a 2px `#000` border sets exactly one Solid stroke with
weight 2 on the emitted Frame. -/
theorem C2_border_stroke_witness :
    (frameCore "div" none [] C2witStyle {}).strokes =
      some [{ type := .SOLID, color := some (parseColor "#000") }] ∧
    (frameCore "div" none [] C2witStyle {}).strokeWeight = some (some 2) ∧
    (traverse (DOMNode.elementNode "div" none [] "" C2witStyle {} [])).map
      FigmaNode.core = some (frameCore "div" none [] C2witStyle {}) := by
  have h1 := (C2_border_stroke.1 "div" none [] C2witStyle {}).1.mpr
    ⟨by decide, by decide, by decide⟩
  have h2 := C2_border_stroke.2 "div" none [] "" C2witStyle {} []
    (FigmaNode.mk (frameCore "div" none [] C2witStyle {}) (some []))
    (by decide) (by rfl)
  refine ⟨h1.1, ?_, ?_⟩
  · rw [h1.2]
    decide
  · rw [traverse_elementNode]
    simp only [show isTextLeaf "" ([] : List DOMNode) = false from rfl,
      Bool.false_eq_true, if_false, Option.map_some']
    rw [show (if lowerStr "div" == "svg" then ([] : List FigmaNode)
      else traverseChildren []) = [] from rfl]
    exact congrArg some h2

theorem textCore_type (innerText : String) (style : CSSStyleDeclaration)
    (rect : DOMRect) : (textCore innerText style rect).type = .TEXT := by
  unfold textCore
  simp only [apply_ite FigmaNodeCore.type, ite_self]

theorem frameCore_type (tagName : String) (ariaLabel : Option String)
    (classes : List String) (style : CSSStyleDeclaration) (rect : DOMRect) :
    (frameCore tagName ariaLabel classes style rect).type = .FRAME := by
  unfold frameCore
  simp only [apply_ite FigmaNodeCore.type, ite_self]

/-- C3 (amended): an element is emitted as a Text node if and only if it has
exactly one child node which is a plain text run and its trimmed `innerText`
is nonempty — with no exception for graphics-vector (svg) roots, which the
source checks only after the text test; every other element is emitted as a
Frame. -/
theorem C3_text_leaf_test :
    (∀ (tagName : String) (ariaLabel : Option String) (classes : List String)
      (innerText : String) (style : CSSStyleDeclaration) (rect : DOMRect)
      (childNodes : List DOMNode),
      (traverse (DOMNode.elementNode tagName ariaLabel classes innerText style
        rect childNodes)).map (fun n => n.core.type) =
        some (if isTextLeaf innerText childNodes then .TEXT else .FRAME)) ∧
    (∀ (innerText : String) (childNodes : List DOMNode),
      isTextLeaf innerText childNodes = true ↔
        ((∃ s, childNodes = [DOMNode.textNode s]) ∧
          0 < (jsTrim innerText).length)) := by
  constructor
  · intro tagName ariaLabel classes innerText style rect childNodes
    rw [traverse_elementNode]
    by_cases ht : isTextLeaf innerText childNodes = true
    · simp only [ht, if_true, Option.map_some', FigmaNode.core, textCore_type]
    · simp only [ht, Bool.false_eq_true, if_false, Option.map_some',
        FigmaNode.core, frameCore_type]
  · intro innerText childNodes
    unfold isTextLeaf
    cases childNodes with
    | nil => simp
    | cons k rest =>
      cases k with
      | textNode s =>
        cases rest with
        | nil => simp [decide_eq_true_eq]
        | cons k2 r2 => simp
      | elementNode t a c it st r ks =>
        cases rest with
        | nil => simp
        | cons k2 r2 => simp

theorem frameCore_layoutMode (tagName : String) (ariaLabel : Option String)
    (classes : List String) (style : CSSStyleDeclaration) (rect : DOMRect) :
    (frameCore tagName ariaLabel classes style rect).layoutMode =
      (if (style.display == "flex" || style.display == "inline-flex") &&
          !(lowerStr tagName == "svg") then
        some (if style.flexDirection == "column" then .VERTICAL else .HORIZONTAL)
      else some .NONE) := by
  unfold frameCore
  simp only [apply_ite FigmaNodeCore.layoutMode, ite_self]

theorem frameCore_primaryAxisAlignItems (tagName : String)
    (ariaLabel : Option String) (classes : List String)
    (style : CSSStyleDeclaration) (rect : DOMRect) :
    (frameCore tagName ariaLabel classes style rect).primaryAxisAlignItems =
      (if (style.display == "flex" || style.display == "inline-flex") &&
          !(lowerStr tagName == "svg") then
        some (if style.justifyContent == "center" then .CENTER
          else if style.justifyContent == "space-between" then .SPACE_BETWEEN
          else if style.justifyContent == "flex-end" then .MAX
          else .MIN)
      else none) := by
  unfold frameCore
  simp only [apply_ite FigmaNodeCore.primaryAxisAlignItems, ite_self]

theorem frameCore_counterAxisAlignItems (tagName : String)
    (ariaLabel : Option String) (classes : List String)
    (style : CSSStyleDeclaration) (rect : DOMRect) :
    (frameCore tagName ariaLabel classes style rect).counterAxisAlignItems =
      (if (style.display == "flex" || style.display == "inline-flex") &&
          !(lowerStr tagName == "svg") then
        some (if style.alignItems == "center" then .CENTER
          else if style.alignItems == "flex-end" then .MAX
          else .MIN)
      else none) := by
  unfold frameCore
  simp only [apply_ite FigmaNodeCore.counterAxisAlignItems, ite_self]

theorem frameCore_itemSpacing (tagName : String) (ariaLabel : Option String)
    (classes : List String) (style : CSSStyleDeclaration) (rect : DOMRect) :
    (frameCore tagName ariaLabel classes style rect).itemSpacing =
      (if (style.display == "flex" || style.display == "inline-flex") &&
          !(lowerStr tagName == "svg") then
        some (jsParseFloat (if style.gap != "" then style.gap else "0"))
      else none) := by
  unfold frameCore
  simp only [apply_ite FigmaNodeCore.itemSpacing, ite_self]

/-- C8: for every flex (display `flex`/`inline-flex`, non-svg) element,
justify-content maps to CENTER / SPACE_BETWEEN / MAX / else MIN on the
primary axis, align-items to CENTER / MAX / else MIN on the counter axis,
layout mode is VERTICAL only for `column` direction, and itemSpacing equals
the numeric gap. -/
theorem C8_flex_alignment :
    ∀ (tagName : String) (ariaLabel : Option String) (classes : List String)
      (style : CSSStyleDeclaration) (rect : DOMRect),
      (style.display = "flex" ∨ style.display = "inline-flex") →
      lowerStr tagName ≠ "svg" →
      (frameCore tagName ariaLabel classes style rect).layoutMode =
          some (if style.flexDirection = "column" then .VERTICAL
            else .HORIZONTAL) ∧
      (frameCore tagName ariaLabel classes style rect).primaryAxisAlignItems =
          some (if style.justifyContent = "center" then .CENTER
            else if style.justifyContent = "space-between" then .SPACE_BETWEEN
            else if style.justifyContent = "flex-end" then .MAX
            else .MIN) ∧
      (frameCore tagName ariaLabel classes style rect).counterAxisAlignItems =
          some (if style.alignItems = "center" then .CENTER
            else if style.alignItems = "flex-end" then .MAX
            else .MIN) ∧
      (∀ g : ℚ, jsParseFloat style.gap = some g →
        (frameCore tagName ariaLabel classes style rect).itemSpacing =
          some (some g)) := by
  intro tagName ariaLabel classes style rect hflex hsvg
  have hcond : ((style.display == "flex" || style.display == "inline-flex") &&
      !(lowerStr tagName == "svg")) = true := by
    rw [Bool.and_eq_true, Bool.or_eq_true, Bool.not_eq_true', beq_eq_false_iff_ne]
    constructor
    · rcases hflex with h | h <;> simp [h]
    · exact hsvg
  refine ⟨?_, ?_, ?_, ?_⟩
  · rw [frameCore_layoutMode, if_pos hcond]
    simp only [beq_iff_eq]
  · rw [frameCore_primaryAxisAlignItems, if_pos hcond]
    simp only [beq_iff_eq]
  · rw [frameCore_counterAxisAlignItems, if_pos hcond]
    simp only [beq_iff_eq]
  · intro g hg
    rw [frameCore_itemSpacing, if_pos hcond]
    have hne : style.gap ≠ "" := by
      intro he
      rw [he, show jsParseFloat "" = none from rfl] at hg
      exact Option.noConfusion hg
    rw [if_pos (bne_iff_ne .. |>.mpr hne), hg]

/-- An svg element whose single child node is a nonempty text run. -/
def C3cexEl : DOMNode :=
  DOMNode.elementNode "svg" none [] "hello" {} {} [DOMNode.textNode "hello"]

/-- Counterexample for C3 as stated: an svg root with exactly one nonempty
text-run child is emitted as a TEXT node, not as a Frame or vector wrapper —
the source never exempts svg roots from the text-leaf test. -/
theorem C3_text_leaf_test_counterexample :
    (generateFigmaJson C3cexEl).map (fun n => n.core.type) = some .TEXT ∧
    FigmaNodeType.TEXT ≠ FigmaNodeType.FRAME := by decide

/-- The flex style of the C8 example. -/
def C8witStyle : CSSStyleDeclaration :=
  { display := "flex", justifyContent := "center", alignItems := "flex-end",
    gap := "8px" }

/-- Witness for C8: `display:flex; justify-content:center;
align-items:flex-end; gap:8px` yields HORIZONTAL, CENTER, MAX and
itemSpacing 8. -/
theorem C8_flex_alignment_witness :
    (frameCore "div" none [] C8witStyle {}).layoutMode = some .HORIZONTAL ∧
    (frameCore "div" none [] C8witStyle {}).primaryAxisAlignItems =
      some .CENTER ∧
    (frameCore "div" none [] C8witStyle {}).counterAxisAlignItems =
      some .MAX ∧
    (frameCore "div" none [] C8witStyle {}).itemSpacing = some (some 8) := by
  have h := C8_flex_alignment "div" none [] C8witStyle {} (Or.inl rfl)
    (by decide)
  refine ⟨?_, ?_, ?_, h.2.2.2 8 (by decide)⟩
  · rw [h.1]
    decide
  · rw [h.2.1]
    decide
  · rw [h.2.2.1]
    decide

theorem traverseChildren_cons (k : DOMNode) (rest : List DOMNode) :
    traverseChildren (k :: rest) = (match traverse k with
      | some n => n :: traverseChildren rest
      | none => traverseChildren rest) := rfl

theorem mem_nodesInAux (m : FigmaNode) :
    ∀ (l : List FigmaNode), m ∈ nodesInAux l ↔ ∃ n ∈ l, m ∈ nodesIn n := by
  intro l
  induction l with
  | nil => simp [nodesInAux]
  | cons n rest ih =>
    simp only [nodesInAux, List.mem_append, ih, List.mem_cons]
    constructor
    · rintro (h | ⟨n', hn', hm⟩)
      · exact ⟨n, Or.inl rfl, h⟩
      · exact ⟨n', Or.inr hn', hm⟩
    · rintro ⟨n', (rfl | hn'), hm⟩
      · exact Or.inl hm
      · exact Or.inr ⟨n', hn', hm⟩

theorem nodesIn_mk (core : FigmaNodeCore) (kids : Option (List FigmaNode)) :
    nodesIn (.mk core kids) = .mk core kids :: nodesInAux (kids.getD []) := by
  cases kids with
  | none => simp [nodesIn, nodesInAux]
  | some l => simp [nodesIn]

/-- C10 (amended): every node in any tree produced by `generateFigmaJson`
has type FRAME or TEXT — the declared discriminators RECTANGLE and VECTOR
never occur — and an svg element that does not pass the text-leaf test is
emitted as a FRAME with an empty children list.  (An svg element whose
single child node is a nonempty text run is instead emitted as TEXT; see the
counterexample.) -/
theorem C10_node_types :
    (∀ (dom : DOMNode) (root : FigmaNode), traverse dom = some root →
      ∀ m ∈ nodesIn root,
        m.core.type = .FRAME ∨ m.core.type = .TEXT) ∧
    (∀ (tagName : String) (ariaLabel : Option String) (classes : List String)
      (innerText : String) (style : CSSStyleDeclaration) (rect : DOMRect)
      (childNodes : List DOMNode) (root : FigmaNode),
      lowerStr tagName = "svg" →
      isTextLeaf innerText childNodes = false →
      traverse (DOMNode.elementNode tagName ariaLabel classes innerText style
        rect childNodes) = some root →
      root.core.type = .FRAME ∧ root.children = some []) := by
  constructor
  · intro dom
    refine traverse.induct
      (fun n => ∀ root, traverse n = some root →
        ∀ m ∈ nodesIn root, m.core.type = .FRAME ∨ m.core.type = .TEXT)
      (fun l => ∀ m ∈ traverseChildren l, ∀ m' ∈ nodesIn m,
        m'.core.type = .FRAME ∨ m'.core.type = .TEXT)
      ?_ ?_ ?_ ?_ ?_ ?_ dom
    · intro content root h
      exact Option.noConfusion h
    · intro tagName ariaLabel classes innerText style rect childNodes ht root h
      rw [traverse_elementNode, if_pos ht, Option.some.injEq] at h
      subst h
      rw [nodesIn_mk]
      intro m hm
      rcases List.mem_cons.mp hm with rfl | hm'
      · right
        exact textCore_type innerText style rect
      · simp [nodesInAux] at hm'
    · intro tagName ariaLabel classes innerText style rect childNodes ht ih root h
      rw [traverse_elementNode, if_neg ht, Option.some.injEq] at h
      subst h
      rw [nodesIn_mk]
      intro m hm
      rcases List.mem_cons.mp hm with rfl | hm'
      · left
        exact frameCore_type tagName ariaLabel classes style rect
      · simp only [Option.getD_some] at hm'
        by_cases hsvg : (lowerStr tagName == "svg") = true
        · rw [if_pos hsvg] at hm'
          simp [nodesInAux] at hm'
        · rw [if_neg hsvg] at hm'
          rcases (mem_nodesInAux m _).mp hm' with ⟨n, hn, hmn⟩
          exact ih n hn m hmn
    · intro m hm
      simp [traverseChildren] at hm
    · intro k rest n hk ihk ihrest m hm
      simp only [traverseChildren_cons, hk] at hm
      rcases List.mem_cons.mp hm with rfl | hm'
      · exact ihk m hk
      · exact ihrest m hm'
    · intro k rest hk ihk ihrest m hm
      simp only [traverseChildren_cons, hk] at hm
      exact ihrest m hm
  · intro tagName ariaLabel classes innerText style rect childNodes root hsvg hnt h
    rw [traverse_elementNode, if_neg (by rw [hnt]; exact Bool.false_ne_true),
      Option.some.injEq] at h
    subst h
    refine ⟨frameCore_type tagName ariaLabel classes style rect, ?_⟩
    rw [show FigmaNode.children (.mk (frameCore tagName ariaLabel classes style rect)
      (some (if lowerStr tagName == "svg" then [] else traverseChildren childNodes)))
      = some (if lowerStr tagName == "svg" then [] else traverseChildren childNodes)
      from rfl]
    rw [if_pos (beq_iff_eq .. |>.mpr hsvg)]

/-- An svg element whose single child node is a nonempty text run, for the
C10 counterexample. -/
def C10cexEl : DOMNode :=
  DOMNode.elementNode "svg" none [] "x" {} {} [DOMNode.textNode "x"]

/-- Counterexample for C10 as stated: this svg element is emitted as a TEXT
node (with no children list at all), not as a FRAME with empty children. -/
theorem C10_node_types_counterexample :
    (generateFigmaJson C10cexEl).map (fun n => n.core.type) = some .TEXT ∧
    (generateFigmaJson C10cexEl).map (fun n => n.children.isNone) =
      some true := by
  decide

/-- A nested tree: a div containing an svg with an untraversed path child. -/
def C10witEl : DOMNode :=
  DOMNode.elementNode "div" none [] "" {} {}
    [DOMNode.elementNode "svg" none [] "" {} {}
      [DOMNode.elementNode "path" none [] "" {} {} []]]

/-- Witness for C10: every node of the emitted tree is FRAME or TEXT, and
the svg child is a FRAME with empty children. -/
theorem C10_node_types_witness :
    ∃ root, traverse C10witEl = some root ∧
      (∀ m ∈ nodesIn root, m.core.type = .FRAME ∨ m.core.type = .TEXT) ∧
      root.core.type = .FRAME ∧
      ∃ svgRoot, traverse (DOMNode.elementNode "svg" none [] "" {} {}
          [DOMNode.elementNode "path" none [] "" {} {} []]) = some svgRoot ∧
        svgRoot.core.type = .FRAME ∧ svgRoot.children = some [] := by
  refine ⟨_, rfl, C10_node_types.1 C10witEl _ rfl, by decide, _, rfl, ?_⟩
  exact C10_node_types.2 "svg" none [] "" {} {}
    [DOMNode.elementNode "path" none [] "" {} {} []] _ (by decide) (by decide)
    rfl

theorem hexChar_props (c : Char) (hc : isHexDigitChar c = true) :
    c.isWhitespace = false ∧ c ≠ '-' ∧ c ≠ '+' ∧ c ≠ 'x' ∧ c ≠ 'X' ∧
    hexDigitVal c ≤ 15 := by
  simp only [isHexDigitChar, List.contains, List.elem_eq_mem, decide_eq_true_eq,
    String.data] at hc
  fin_cases hc <;>
    refine ⟨rfl, by decide, by decide, by decide, by decide, by decide⟩

theorem jsParseIntHex_pair (a b : Char) (ha : isHexDigitChar a = true)
    (hb : isHexDigitChar b = true) :
    jsParseIntHex (String.mk [a, b]) =
      some ((16 * hexDigitVal a + hexDigitVal b : ℕ) : ℚ) := by
  obtain ⟨hwa, hda, hpa, hxa, hXa, hva⟩ := hexChar_props a ha
  obtain ⟨hwb, hdb, hpb, hxb, hXb, hvb⟩ := hexChar_props b hb
  have hstrip : ¬(a = '-' ∨ a = '+') := by
    push_neg
    exact ⟨hda, hpa⟩
  have h0x : ¬ (([a, b].headD ' ') = '0' ∧
      ((([a, b].drop 1).headD ' ') = 'x' ∨ (([a, b].drop 1).headD ' ') = 'X')) := by
    rintro ⟨h0, hx | hx⟩
    · exact hxb hx
    · exact hXb hx
  unfold jsParseIntHex
  dsimp only
  rw [show ([a, b].dropWhile Char.isWhitespace) = [a, b] from by
    rw [List.dropWhile_cons, if_neg (by simp [hwa])]]
  rw [show ([a, b].headD ' ') = a from rfl]
  rw [if_neg hda, if_neg hstrip]
  rw [if_neg h0x]
  rw [show ([a, b].takeWhile isHexDigitChar) = [a, b] from by
    rw [List.takeWhile_cons, if_pos (by simp [ha]), List.takeWhile_cons,
      if_pos (by simp [hb])]
    simp]
  rw [if_neg (by simp : ¬([a, b] = ([] : List Char)))]
  congr 1
  rw [show hexDigitsVal [a, b] = 16 * (16 * 0 + hexDigitVal a) + hexDigitVal b
    from rfl]
  push_cast
  ring

/-- A numeric token of the Color Parser is in range: it parses to a value
bounded by its scale — 100 with a `%` suffix, 255 for a bare channel, 1 for
a bare alpha (token index ≥ 3). -/
def colorTokenOk (i : ℕ) (t : List Char) : Prop :=
  ∃ v : ℚ, jsParseFloat (String.mk t) = some v ∧ 0 ≤ v ∧
    (if t.getLast? = some '%' then v ≤ 100
     else if 3 ≤ i then v ≤ 1 else v ≤ 255)

/-- A well-formed color input: a keyword, a `#`-token over hex digits, or a
functional notation whose numeric tokens are in range. -/
def colorInputBounded (s : String) : Prop :=
  s = "" ∨ s = "transparent" ∨ s = "none" ∨
  ((∀ hex, s.data = '#' :: hex → ∀ c ∈ hex, isHexDigitChar c = true) ∧
   ((∀ hex, s.data ≠ '#' :: hex) →
     ∀ i t, (matchNumbers s).get? i = some t → colorTokenOk i t))

/-- Every explicit percentage inside the stop entries is between 0 and 100. -/
def pctRunsBounded (stops : List String) : Prop :=
  ∀ stop ∈ stops, ∀ run, findPctRun stop.data = some run →
    ∃ v : ℚ, jsParseFloat (String.mk run) = some v ∧ 0 ≤ v ∧ v ≤ 100

theorem inUnitNumB_some (v : ℚ) (h0 : 0 ≤ v) (h1 : v ≤ 1) :
    inUnitNumB (some v) = true := by
  simp [inUnitNumB]
  exact ⟨h0, h1⟩

theorem inUnitNumB_div (v : ℚ) (c : ℚ) (hc : 0 < c) (h0 : 0 ≤ v) (h1 : v ≤ c) :
    inUnitNumB (jsDiv (some v) c) = true := by
  simp only [jsDiv, Option.map_some']
  exact inUnitNumB_some _ (by positivity) ((div_le_one hc).mpr h1)

theorem getD_mem_of_lt {α : Type} (l : List α) (i : ℕ) (d : α)
    (h : i < l.length) : l.getD i d ∈ l := by
  rw [List.getD_eq_getElem?_getD, List.getElem?_eq_getElem h]
  exact List.getElem_mem h

theorem listPair (l : List Char) (h : l.length = 2) : ∃ x y, l = [x, y] := by
  rcases l with _ | ⟨x, _ | ⟨y, _ | ⟨z, r⟩⟩⟩ <;> simp_all

theorem hexPair_inUnit (l : List Char) (hall : ∀ c ∈ l, isHexDigitChar c = true)
    (hlen : l.length = 2) : inUnitNumB (jsDiv (jsParseIntHex (String.mk l)) 255) = true := by
  obtain ⟨x, y, rfl⟩ := listPair l hlen
  have hx := hall x (by simp)
  have hy := hall y (by simp)
  rw [jsParseIntHex_pair x y hx hy]
  refine inUnitNumB_div _ _ (by norm_num) (by positivity) ?_
  have hvx := (hexChar_props x hx).2.2.2.2.2
  have hvy := (hexChar_props y hy).2.2.2.2.2
  have : 16 * hexDigitVal x + hexDigitVal y ≤ 255 := by omega
  exact_mod_cast this

theorem get?_eq_some_getD {α : Type} (l : List α) (i : ℕ) (d : α)
    (h : i < l.length) : l.get? i = some (l.getD i d) := by
  rw [List.get?_eq_getElem?, List.getElem?_eq_getElem h,
    List.getD_eq_getElem?_getD, List.getElem?_eq_getElem h]
  rfl

theorem pairSame_hex (c : Char) (hc : isHexDigitChar c = true) :
    ∀ d ∈ [c, c], isHexDigitChar d = true := by
  intro d hd
  rcases List.mem_cons.mp hd with rfl | hd'
  · exact hc
  · rcases List.mem_cons.mp hd' with rfl | hd''
    · exact hc
    · simp at hd''

theorem parseValue_inUnit (i : ℕ) (t : List Char) (hi : i ≤ 2)
    (hok : colorTokenOk i t) :
    inUnitNumB (if t.getLast? = some '%' then
      jsDiv (jsParseFloat (String.mk t)) 100
    else jsDiv (jsParseFloat (String.mk t)) 255) = true := by
  obtain ⟨v, hv, h0, hb⟩ := hok
  by_cases hp : t.getLast? = some '%'
  · rw [if_pos hp, hv]
    rw [if_pos hp] at hb
    exact inUnitNumB_div _ _ (by norm_num) h0 hb
  · rw [if_neg hp, hv]
    rw [if_neg hp, if_neg (by omega)] at hb
    exact inUnitNumB_div _ _ (by norm_num) h0 hb

/-- C1 (amended): every channel and the alpha of a parsed color lie in
[0,1] provided the input is well formed — a keyword, a hex token over hex
digits, or functional notation whose numeric tokens do not exceed their
scales (255 for bare channels, 100 for percentages, 1 for a bare alpha);
and every gradient stop position lies in [0,1] provided the gradient has at
least two stops and its explicit percentages are at most 100.  Out-of-range
inputs are not clamped; see the counterexample. -/
theorem C1_channels_in_unit :
    (∀ s : String, colorInputBounded s → colorInUnitB (parseColor s) = true) ∧
    (∀ stops : List String, 2 ≤ stops.length → pctRunsBounded stops →
      ∀ st ∈ gradientStopsOf stops, inUnitNumB st.position = true) := by
  constructor
  · intro s hs
    unfold parseColor
    by_cases hk : (s == "" || s == "transparent" || s == "none") = true
    · rw [if_pos hk]
      decide
    · rw [if_neg hk]
      have hs' : (∀ hex, s.data = '#' :: hex → ∀ c ∈ hex, isHexDigitChar c = true) ∧
          ((∀ hex, s.data ≠ '#' :: hex) →
            ∀ i t, (matchNumbers s).get? i = some t → colorTokenOk i t) := by
        rcases hs with h | h | h | h
        · exact absurd (by simp [h]) hk
        · exact absurd (by simp [h]) hk
        · exact absurd (by simp [h]) hk
        · exact h
      split
      · next hex heq =>
        have hall := hs'.1 hex heq
        dsimp only
        by_cases h3 : hex.length = 3
        · rw [if_pos h3]
          simp only [colorInUnitB, Bool.and_eq_true]
          have hm0 : hex.getD 0 ' ' ∈ hex := getD_mem_of_lt _ _ _ (by omega)
          have hm1 : hex.getD 1 ' ' ∈ hex := getD_mem_of_lt _ _ _ (by omega)
          have hm2 : hex.getD 2 ' ' ∈ hex := getD_mem_of_lt _ _ _ (by omega)
          exact ⟨⟨⟨hexPair_inUnit _ (pairSame_hex _ (hall _ hm0)) rfl,
            hexPair_inUnit _ (pairSame_hex _ (hall _ hm1)) rfl⟩,
            hexPair_inUnit _ (pairSame_hex _ (hall _ hm2)) rfl⟩,
            inUnitNumB_some 1 (by norm_num) (by norm_num)⟩
        · by_cases h6 : hex.length = 6
          · rw [if_neg h3, if_pos h6]
            simp only [colorInUnitB, Bool.and_eq_true]
            refine ⟨⟨⟨?_, ?_⟩, ?_⟩, inUnitNumB_some 1 (by norm_num) (by norm_num)⟩
            · exact hexPair_inUnit _
                (fun c hc => hall c (List.take_subset _ _ hc))
                (by simp [List.length_take, h6])
            · exact hexPair_inUnit _
                (fun c hc => hall c (List.drop_subset _ _ (List.take_subset _ _ hc)))
                (by simp [List.length_take, List.length_drop, h6])
            · exact hexPair_inUnit _
                (fun c hc => hall c (List.drop_subset _ _ (List.take_subset _ _ hc)))
                (by simp [List.length_take, List.length_drop, h6])
          · by_cases h8 : hex.length = 8
            · rw [if_neg h3, if_neg h6, if_pos h8]
              simp only [colorInUnitB, Bool.and_eq_true]
              refine ⟨⟨⟨?_, ?_⟩, ?_⟩, ?_⟩
              · exact hexPair_inUnit _
                  (fun c hc => hall c (List.take_subset _ _ hc))
                  (by simp [List.length_take, h8])
              · exact hexPair_inUnit _
                  (fun c hc => hall c (List.drop_subset _ _ (List.take_subset _ _ hc)))
                  (by simp [List.length_take, List.length_drop, h8])
              · exact hexPair_inUnit _
                  (fun c hc => hall c (List.drop_subset _ _ (List.take_subset _ _ hc)))
                  (by simp [List.length_take, List.length_drop, h8])
              · exact hexPair_inUnit _
                  (fun c hc => hall c (List.drop_subset _ _ (List.take_subset _ _ hc)))
                  (by simp [List.length_take, List.length_drop, h8])
            · rw [if_neg h3, if_neg h6, if_neg h8]
              decide
      · next hmiss =>
        have hno : ∀ hex, s.data ≠ '#' :: hex := by
          intro hex heq
          exact hmiss hex heq
        have htok := hs'.2 hno
        dsimp only
        by_cases hlen : (matchNumbers s).length ≥ 3
        · rw [if_pos hlen]
          simp only [colorInUnitB, Bool.and_eq_true]
          have h0 := htok 0 _ (get?_eq_some_getD _ 0 [] (by omega))
          have h1 := htok 1 _ (get?_eq_some_getD _ 1 [] (by omega))
          have h2 := htok 2 _ (get?_eq_some_getD _ 2 [] (by omega))
          refine ⟨⟨⟨parseValue_inUnit 0 _ (by omega) h0,
            parseValue_inUnit 1 _ (by omega) h1⟩,
            parseValue_inUnit 2 _ (by omega) h2⟩, ?_⟩
          by_cases h4 : (matchNumbers s).length ≥ 4
          · rw [if_pos h4]
            have ht3 := htok 3 _ (get?_eq_some_getD _ 3 [] (by omega))
            obtain ⟨v, hv, hv0, hvb⟩ := ht3
            by_cases hp : ((matchNumbers s).getD 3 []).getLast? = some '%'
            · rw [if_pos hp, hv]
              rw [if_pos hp] at hvb
              exact inUnitNumB_div _ _ (by norm_num) hv0 hvb
            · rw [if_neg hp, hv]
              rw [if_neg hp, if_pos (by omega)] at hvb
              exact inUnitNumB_some _ hv0 hvb
          · rw [if_neg h4]
            exact inUnitNumB_some 1 (by norm_num) (by norm_num)
        · rw [if_neg hlen]
          decide
  · intro stops hlen hpct st hst
    rcases List.mem_iff_get?.mp hst with ⟨i, hi⟩
    unfold gradientStopsOf at hi
    rw [gradientStopsGo_get? stops.length stops 0 i] at hi
    cases hentry : stops.get? i with
    | none => rw [hentry] at hi; simp at hi
    | some entry =>
      rw [hentry] at hi
      simp only [Option.map_some', Option.some.injEq] at hi
      have hilt : i < stops.length := by
        by_contra hge
        rw [List.get?_eq_getElem?, List.getElem?_eq_none (by omega)] at hentry
        exact Option.noConfusion hentry
      have hmem : entry ∈ stops := List.get?_mem hentry
      subst hi
      unfold stopFor
      dsimp only
      cases hrun : findPctRun entry.data with
      | some run =>
        obtain ⟨v, hv, h0, hb⟩ := hpct entry hmem run hrun
        show inUnitNumB (jsDiv (jsParseFloat (String.mk run)) 100) = true
        rw [hv]
        exact inUnitNumB_div _ _ (by norm_num) h0 hb
      | none =>
        show inUnitNumB (if stops.length = 1 then none
          else some (((0 + i : ℕ) : ℚ) / ((stops.length : ℚ) - 1))) = true
        rw [if_neg (by omega)]
        have hden : (0:ℚ) < (stops.length : ℚ) - 1 := by
          have h2 : (2:ℚ) ≤ (stops.length : ℚ) := by exact_mod_cast hlen
          linarith
        refine inUnitNumB_some _ (div_nonneg (by positivity) (le_of_lt hden)) ?_
        rw [div_le_one hden]
        have hle : ((0 + i : ℕ) : ℚ) + 1 ≤ (stops.length : ℚ) := by
          exact_mod_cast Nat.succ_le_of_lt (by omega : 0 + i < stops.length)
        linarith

/-- Counterexample for C1 as stated: the color parser does not clamp, so
`rgb(500, 0, 0)` produces a red channel of 500/255 = 100/51 > 1. -/
theorem C1_channels_in_unit_counterexample :
    (parseColor "rgb(500, 0, 0)").r = some (100/51) ∧
    inUnitNumB (parseColor "rgb(500, 0, 0)").r = false ∧
    colorInUnitB (parseColor "rgb(500, 0, 0)") = false := by decide

/-- Witness for C1: a well-formed hex color has all channels in [0,1], and
the stops of a two-stop gradient with a 50% position all lie in [0,1]. -/
theorem C1_channels_in_unit_witness :
    colorInUnitB (parseColor "#1fa2b3") = true ∧
    (gradientStopsOf ["red", "blue 50%"]).all
      (fun st => inUnitNumB st.position) = true := by
  constructor
  · refine C1_channels_in_unit.1 "#1fa2b3" (Or.inr (Or.inr (Or.inr ⟨?_, ?_⟩)))
    · intro hex heq
      rw [show "#1fa2b3".data = '#' :: "1fa2b3".data from rfl,
        List.cons.injEq] at heq
      rw [← heq.2]
      decide
    · intro hno
      exact ((hno "1fa2b3".data rfl).elim)
  · rw [List.all_eq_true]
    intro st hst
    refine C1_channels_in_unit.2 ["red", "blue 50%"] (by decide) ?_ st hst
    intro stop hstop run hrun
    rcases List.mem_cons.mp hstop with rfl | hstop'
    · rw [show findPctRun "red".data = none from rfl] at hrun
      exact Option.noConfusion hrun
    · rcases List.mem_cons.mp hstop' with rfl | hstop''
      · rw [show findPctRun "blue 50%".data = some "50".data from rfl,
          Option.some.injEq] at hrun
        rw [← hrun]
        exact ⟨50, by decide, by decide, by decide⟩
      · simp at hstop''

/-- Lowercase hex digit for a value 0–15. -/
def hexDigitChar (k : ℕ) : Char := "0123456789abcdef".data.getD k '0'

/-- Two lowercase hex digits for a byte value. -/
def byteHexChars (n : ℤ) : List Char :=
  [hexDigitChar (n.toNat / 16), hexDigitChar (n.toNat % 16)]

/-- Spec-side reconstruction for the round-trip property: each channel is
multiplied by 255, rounded to an integer byte, and written back as two hex
digits behind a `#`. -/
def reconstructHex (c : FigmaColor) : Option String :=
  match c.r, c.g, c.b with
  | some r, some g, some b =>
    some (String.mk ('#' :: (byteHexChars (round (r * 255)) ++
      byteHexChars (round (g * 255)) ++ byteHexChars (round (b * 255)))))
  | _, _, _ => none

/-- A six-digit hex color string. -/
def IsHex6 (s : String) : Prop :=
  ∃ h, s.data = '#' :: h ∧ h.length = 6 ∧ ∀ c ∈ h, isHexDigitChar c = true

theorem hexChar_lower (c : Char) (hc : isHexDigitChar c = true) :
    hexDigitChar (hexDigitVal c) = Char.toLower c := by
  simp only [isHexDigitChar, List.contains, List.elem_eq_mem, decide_eq_true_eq,
    String.data] at hc
  fin_cases hc <;> decide

theorem listSix (l : List Char) (h : l.length = 6) :
    ∃ a b c d e f, l = [a, b, c, d, e, f] := by
  rcases l with _ | ⟨a, _ | ⟨b, _ | ⟨c, _ | ⟨d, _ | ⟨e, _ | ⟨f, _ | ⟨g, r⟩⟩⟩⟩⟩⟩⟩ <;>
    simp_all

theorem byteHexChars_pair (a b : Char) (ha : isHexDigitChar a = true)
    (hb : isHexDigitChar b = true) :
    byteHexChars (round ((((16 * hexDigitVal a + hexDigitVal b : ℕ) : ℚ) / 255)
      * 255)) = [Char.toLower a, Char.toLower b] := by
  rw [div_mul_cancel₀ _ (by norm_num : (255:ℚ) ≠ 0), round_natCast]
  unfold byteHexChars
  have hva := (hexChar_props a ha).2.2.2.2.2
  have hvb := (hexChar_props b hb).2.2.2.2.2
  rw [show ((16 * hexDigitVal a + hexDigitVal b : ℕ) : ℤ).toNat =
    16 * hexDigitVal a + hexDigitVal b from by omega]
  rw [show (16 * hexDigitVal a + hexDigitVal b) / 16 = hexDigitVal a from by omega]
  rw [show (16 * hexDigitVal a + hexDigitVal b) % 16 = hexDigitVal b from by omega]
  rw [hexChar_lower a ha, hexChar_lower b hb]

set_option maxHeartbeats 2000000 in
/-- C9: parsing a valid six-digit hex color and reconstructing a hex string
from the normalized channels (each channel times 255, rounded to an integer
byte) recovers the original string exactly, up to lower-casing of the hex
digit letters — the channel bytes themselves round-trip with no loss. -/
theorem C9_hex6_roundtrip :
    ∀ s : String, IsHex6 s → reconstructHex (parseColor s) = some (lowerStr s) := by
  rintro s ⟨h, hdata, hlen, hall⟩
  have hk : ¬ ((s == "" || s == "transparent" || s == "none") = true) := by
    intro hcontra
    simp only [Bool.or_eq_true, beq_iff_eq] at hcontra
    rcases hcontra with (h1 | h1) | h1 <;> (rw [h1] at hdata; simp at hdata)
  obtain ⟨a, b, c, d, e, f, rfl⟩ := listSix h hlen
  have ha := hall a (by simp)
  have hb := hall b (by simp)
  have hc := hall c (by simp)
  have hd := hall d (by simp)
  have he := hall e (by simp)
  have hf := hall f (by simp)
  unfold parseColor
  rw [if_neg hk, hdata]
  show reconstructHex
    { r := jsDiv (jsParseIntHex (String.mk [a, b])) 255,
      g := jsDiv (jsParseIntHex (String.mk [c, d])) 255,
      b := jsDiv (jsParseIntHex (String.mk [e, f])) 255,
      a := some 1 } = some (lowerStr s)
  rw [jsParseIntHex_pair a b ha hb, jsParseIntHex_pair c d hc hd,
    jsParseIntHex_pair e f he hf]
  show some (String.mk ('#' ::
      (byteHexChars (round ((((16 * hexDigitVal a + hexDigitVal b : ℕ) : ℚ) / 255) * 255)) ++
       byteHexChars (round ((((16 * hexDigitVal c + hexDigitVal d : ℕ) : ℚ) / 255) * 255)) ++
       byteHexChars (round ((((16 * hexDigitVal e + hexDigitVal f : ℕ) : ℚ) / 255) * 255)))))
    = some (lowerStr s)
  rw [byteHexChars_pair a b ha hb, byteHexChars_pair c d hc hd,
    byteHexChars_pair e f he hf]
  rw [show lowerStr s = String.mk (s.data.map Char.toLower) from rfl, hdata]
  rfl

/-- Witness for C9: `#1a2b3c` round-trips to itself. -/
theorem C9_hex6_roundtrip_witness :
    IsHex6 "#1a2b3c" ∧
    reconstructHex (parseColor "#1a2b3c") = some "#1a2b3c" := by
  have hs : IsHex6 "#1a2b3c" := ⟨"1a2b3c".data, rfl, by decide, by decide⟩
  refine ⟨hs, ?_⟩
  rw [C9_hex6_roundtrip "#1a2b3c" hs]
  rfl
